import Mathlib

/-!
# NodeMagick: geometry planner and load/save procedures

A shallow embedding of `src/NodeMagick.cc`.  The planner works on C `double`
values, so the development starts with an executable model of IEEE-754
binary64 arithmetic (round to nearest, ties to even) over `Nat`/`Int`.
-/

set_option maxRecDepth 8000
set_option exponentiation.threshold 2000

/-! ## binary64 arithmetic -/

/-- A binary64 value.  A finite value is `(-1)^neg * m * 2^e`; the results of the
arithmetic below are in IEEE normal form (`2^52 ≤ m < 2^53`, or `e = -1074`). -/
inductive Double where
  | nan : Double
  | inf (neg : Bool) : Double
  | fin (neg : Bool) (m : Nat) (e : Int) : Double
  deriving DecidableEq

namespace Double

/-- Binary logarithm with explicit fuel: `bitsAux f n = ⌊log₂ n⌋` once `n ≤ f`. -/
def bitsAux : Nat → Nat → Nat
  | 0, _ => 0
  | f + 1, n => if n < 2 then 0 else bitsAux f (n / 2) + 1

/-- Floor of the binary logarithm of `n` (`0` for `n = 0`). -/
def ilog2 (n : Nat) : Nat := bitsAux n n

/-- Largest `k` with `2^k ≤ n/d`, for `n, d > 0`. -/
def floorLog2 (n d : Nat) : Int :=
  let k : Int := (ilog2 n : Int) - (ilog2 d : Int)
  if d * 2 ^ k.toNat ≤ n * 2 ^ (-k).toNat then k else k - 1

/-- Nearest integer to `n/d`, ties to even. -/
def roundNearestEven (n d : Nat) : Nat :=
  let q := n / d
  let r := n % d
  if 2 * r < d then q
  else if d < 2 * r then q + 1
  else if q % 2 = 0 then q else q + 1

/-- Exponent of the unit in the last place for the positive rational `n/d`. -/
def ulpExp (n d : Nat) : Int := max (floorLog2 n d - 52) (-1074)

/-- The binary64 nearest to `(-1)^neg * n/d` (`d > 0`), overflowing to infinity. -/
def roundPos (neg : Bool) (n d : Nat) : Double :=
  if n = 0 then fin neg 0 (-1074)
  else
    let e := ulpExp n d
    let m := roundNearestEven (n * 2 ^ (-e).toNat) (d * 2 ^ e.toNat)
    let m1 := if m = 2 ^ 53 then 2 ^ 52 else m
    let e1 := if m = 2 ^ 53 then e + 1 else e
    if 971 < e1 then inf neg else fin neg m1 e1

/-- Conversion of an unsigned integer to `double`: C++ `(double)n`. -/
def ofULong (n : Nat) : Double := roundPos false n 1

/-- Product `a * b` in binary64. -/
def mul : Double → Double → Double
  | nan, _ => nan
  | _, nan => nan
  | inf s, inf t => inf (xor s t)
  | inf s, fin t m _ => if m = 0 then nan else inf (xor s t)
  | fin s m _, inf t => if m = 0 then nan else inf (xor s t)
  | fin s m1 e1, fin t m2 e2 =>
      roundPos (xor s t) (m1 * m2 * 2 ^ (e1 + e2).toNat) (2 ^ (-(e1 + e2)).toNat)

/-- Quotient `a / b` in binary64. -/
def div : Double → Double → Double
  | nan, _ => nan
  | _, nan => nan
  | inf _, inf _ => nan
  | inf s, fin t _ _ => inf (xor s t)
  | fin s _ _, inf t => fin (xor s t) 0 (-1074)
  | fin s m1 e1, fin t m2 e2 =>
      if m2 = 0 then (if m1 = 0 then nan else inf (xor s t))
      else roundPos (xor s t) (m1 * 2 ^ (e1 - e2).toNat) (m2 * 2 ^ (e2 - e1).toNat)

/-- A magnitude with its sign, as an integer. -/
def signed (neg : Bool) (n : Nat) : Int := if neg then -(n : Int) else (n : Int)

/-- Comparison `a < b` on binary64 (false when either side is NaN). -/
def lt : Double → Double → Bool
  | nan, _ => false
  | _, nan => false
  | inf s, inf t => s && !t
  | inf s, fin _ _ _ => s
  | fin _ _ _, inf t => !t
  | fin s m1 e1, fin t m2 e2 =>
      decide (signed s (m1 * 2 ^ (e1 - min e1 e2).toNat) < signed t (m2 * 2 ^ (e2 - min e1 e2).toNat))

/-- Comparison `a == b` on binary64 (false when either side is NaN, `-0 == +0`). -/
def eq : Double → Double → Bool
  | nan, _ => false
  | _, nan => false
  | inf s, inf t => s == t
  | inf _, fin _ _ _ => false
  | fin _ _ _, inf _ => false
  | fin s m1 e1, fin t m2 e2 =>
      decide (signed s (m1 * 2 ^ (e1 - min e1 e2).toNat) = signed t (m2 * 2 ^ (e2 - min e1 e2).toNat))

/-- Comparison `a <= b` on binary64. -/
def le (a b : Double) : Bool := lt a b || eq a b

/-- The constant `0.0`. -/
def zero : Double := fin false 0 (-1074)

/-- Comparison `a != b` on binary64 (true when either side is NaN). -/
def ne (a b : Double) : Bool := !eq a b

/-- The value truncated toward zero, when it is finite. -/
def trunc : Double → Option Int
  | nan => none
  | inf _ => none
  | fin s m e => some (signed s (m * 2 ^ e.toNat / 2 ^ (-e).toNat))

/-- C++ conversion `double → unsigned long` (64 bits): the value truncated toward
zero; `none` stands for undefined behaviour (the truncated value is not
representable). -/
def toULong (a : Double) : Option Nat :=
  match trunc a with
  | some z => if 0 ≤ z ∧ z < 2 ^ 64 then some z.toNat else none
  | none => none

/-- ECMAScript `ToUint32`, what V8 `Value::Uint32Value()` returns for a number. -/
def Uint32Value (a : Double) : Nat :=
  match trunc a with
  | some z => (z % 2 ^ 32).toNat
  | none => 0

/-- Well-formed binary64: the finite values have a 53-bit significand and an
exponent in range. -/
def WF : Double → Prop
  | nan => True
  | inf _ => True
  | fin _ m e => m < 2 ^ 53 ∧ -1074 ≤ e ∧ e ≤ 971

instance (a : Double) : Decidable (WF a) := by
  cases a <;> unfold WF <;> infer_instance

/-- The rational value of a finite binary64 (`0` for NaN and the infinities). -/
def val : Double → ℚ
  | fin s m e => (if s then -1 else 1) * (m : ℚ) * (2 : ℚ) ^ e
  | _ => 0

/-- A non-negative rational that is a binary64 value. -/
def Rep (F : ℚ) : Prop :=
  ∃ m : ℕ, ∃ e : ℤ, m < 2 ^ 53 ∧ -1074 ≤ e ∧ e ≤ 971 ∧ F = (m : ℚ) * (2 : ℚ) ^ e

end Double

/-! ## Values handed over by the JavaScript caller -/

/-- A JavaScript argument value, as far as the planner inspects it.  A string
carries the number ECMAScript `ToNumber` assigns to it. -/
inductive Value where
  | undefined : Value
  | number (d : Double) : Value
  | string (s : String) (toNumber : Double) : Value
  | function : Value
  deriving DecidableEq

namespace Value

/-- V8 `Value::IsNumber()`. -/
def IsNumber : Value → Bool
  | number _ => true
  | _ => false

/-- V8 `Value::NumberValue()`: ECMAScript `ToNumber`. -/
def NumberValue : Value → Double
  | number d => d
  | string _ n => n
  | _ => Double.nan

/-- V8 `Value::Uint32Value()`: ECMAScript `ToUint32`. -/
def Uint32Value (v : Value) : Nat := Double.Uint32Value (NumberValue v)

end Value

/-! ## The session object -/

/-- Alignment codes of `ImageAlign_e`; the vertical codes reuse the values of the
horizontal ones. -/
def ALIGN_NONE : Nat := 0
/-- Horizontal alignment code: left. -/
def ALIGN_LEFT : Nat := 1
/-- Horizontal alignment code: center. -/
def ALIGN_CENTER : Nat := 2
/-- Horizontal alignment code: right. -/
def ALIGN_RIGHT : Nat := 3
/-- Vertical alignment code: top. -/
def ALIGN_TOP : Nat := 1
/-- Vertical alignment code: middle. -/
def ALIGN_MIDDLE : Nat := 2
/-- Vertical alignment code: bottom. -/
def ALIGN_BOTTOM : Nat := 3

/-- The struct `ImageSize`: `unsigned long w, h; double aspect`. -/
structure ImageSize where
  w : Nat
  h : Nat
  aspect : Double
  deriving DecidableEq

/-- A call into the MagickWand library that acts on the wand. -/
inductive WandCall where
  | ReadImage (path : String) : WandCall
  | CropImage (w h : Nat) (x y : Int) : WandCall
  | SampleImage (w h : Nat) : WandCall
  | SetImageCompressionQuality (quality : Nat) : WandCall
  | SetFormat (format : String) : WandCall
  | ProfileImage : WandCall
  | WriteImage (path : String) : WandCall
  deriving DecidableEq

/-- The MagickWand library as this code sees it.  The outcome of a call and the
answers to the queries are functions of the calls made so far on the wand. -/
structure MagickLib where
  status : List WandCall → WandCall → Bool
  exception : List WandCall → String
  imageFormat : List WandCall → String
  imageWidth : List WandCall → Nat
  imageHeight : List WandCall → Nat

/-- The private fields of class `NodeMagick`.  `wand` is the list of calls made on
the current wand, oldest first; the `int` flags `attached`, `cropped` and
`resized` only ever hold 0 or 1. -/
structure NodeMagick where
  wand : List WandCall
  attached : Bool
  format : Option String
  format_to : Option String
  src : Option String
  quality : Nat
  scale : Double
  cropped : Bool
  resized : Bool
  x : Int
  y : Int
  size : ImageSize
  crop : ImageSize
  resize : ImageSize
  deriving DecidableEq

/-- Arithmetic of `unsigned long`: subtraction modulo `2^64`. -/
def ulongSub (a b : Nat) : Nat := (a + 2 ^ 64 - b % 2 ^ 64) % 2 ^ 64

/-- Conversion `unsigned long → long` on a two's complement machine. -/
def toLong (n : Nat) : Int := if n < 2 ^ 63 then (n : Int) else (n : Int) - 2 ^ 64

/-- How a planner method ends: it returns a value, it throws a `TypeError` with
its usage text, or a `double → unsigned long` conversion is out of range, which
C++ leaves undefined. -/
inductive Completion (α : Type) where
  | value (ret : α) (ctx : NodeMagick) : Completion α
  | typeError (msg : String) (ctx : NodeMagick) : Completion α
  | undefinedBehavior : Completion α
  deriving DecidableEq

namespace NodeMagick

/-- The constructor `NodeMagick::NodeMagick()`. -/
def new : NodeMagick :=
  { wand := [], attached := false, format := none, format_to := none, src := none,
    quality := 100, scale := Double.ofULong 100, cropped := false, resized := false,
    x := 0, y := 0,
    size := { w := 0, h := 0, aspect := Double.ofULong 1 },
    crop := { w := 0, h := 0, aspect := Double.ofULong 1 },
    -- resize.aspect is left uninitialised by the constructor and is never read
    resize := { w := 0, h := 0, aspect := Double.zero } }

/-- The method `NodeMagick::loadImage`; the result is the error text, `none` for
`Undefined()`. -/
def loadImage (lib : MagickLib) (ctx : NodeMagick) (path : String) :
    Option String × NodeMagick :=
  let ctx := if ctx.attached then { ctx with wand := [], attached := false } else ctx
  let wand := ctx.wand ++ [WandCall.ReadImage path]
  if lib.status ctx.wand (WandCall.ReadImage path) = false then
    (some (lib.exception wand), { ctx with wand := wand })
  else
    let w := lib.imageWidth wand % 2 ^ 64
    let h := lib.imageHeight wand % 2 ^ 64
    let aspect := Double.div (Double.ofULong w) (Double.ofULong h)
    (none,
      { ctx with
        wand := wand, attached := true, src := some path,
        format := some (lib.imageFormat wand),
        size := { w := w, h := h, aspect := aspect },
        crop := { w := w, h := h, aspect := aspect },
        resize := { ctx.resize with w := w, h := h } })

/-- One guarded step of `saveImage`: the call is made when the status so far is
`MagickTrue` and the guard holds. -/
def saveStep (lib : MagickLib) (guard : Bool) (call : WandCall)
    (st : Bool × List WandCall) : Bool × List WandCall :=
  if st.1 && guard then (lib.status st.2 call, st.2 ++ [call]) else st

/-- The method `NodeMagick::saveImage`. -/
def saveImage (lib : MagickLib) (ctx : NodeMagick) (path : String) :
    Option String × NodeMagick :=
  if ctx.attached then
    -- crop
    let st : Bool × List WandCall :=
      if ctx.cropped then
        (lib.status ctx.wand (WandCall.CropImage ctx.crop.w ctx.crop.h ctx.x ctx.y),
          ctx.wand ++ [WandCall.CropImage ctx.crop.w ctx.crop.h ctx.x ctx.y])
      else (true, ctx.wand)
    -- resize
    let st := saveStep lib ctx.resized (WandCall.SampleImage ctx.resize.w ctx.resize.h) st
    -- quality 0-100
    let st := saveStep lib true (WandCall.SetImageCompressionQuality ctx.quality) st
    -- format
    let st := saveStep lib ctx.format_to.isSome (WandCall.SetFormat (ctx.format_to.getD "")) st
    -- remove profiles
    let st := saveStep lib true WandCall.ProfileImage st
    -- write
    let st := saveStep lib true (WandCall.WriteImage path) st
    -- failed
    if st.1 = false then (some (lib.exception st.2), { ctx with wand := st.2 })
    else (none, { ctx with wand := st.2 })
  else (none, ctx)

/-- The base dimensions of `fnScale` and `fnResize` as doubles: the crop size when
`cropped`, the natural size otherwise. -/
def baseW (ctx : NodeMagick) : Double :=
  if ctx.cropped then Double.ofULong ctx.crop.w else Double.ofULong ctx.size.w

/-- See `baseW`. -/
def baseH (ctx : NodeMagick) : Double :=
  if ctx.cropped then Double.ofULong ctx.crop.h else Double.ofULong ctx.size.h

/-- The body of `fnCrop` after argument checking, up to the final
`if( ctx->cropped )`; `none` stands for undefined behaviour. -/
def cropPlan (ctx : NodeMagick) (argv : List Value) (aspect : Double) : Option NodeMagick :=
  let argc := argv.length
  let ctx := { ctx with cropped := true }
  if Double.lt aspect ctx.size.aspect then
    match Double.toULong (Double.mul (Double.ofULong ctx.size.h) aspect) with
    | none => none
    | some cw =>
      let ctx := { ctx with crop := { ctx.crop with w := cw, h := ctx.size.h } }
      if argc > 1 ∧ (argv.getD 1 Value.undefined).IsNumber = true then
        let a := (argv.getD 1 Value.undefined).Uint32Value
        if a = ALIGN_LEFT then some { ctx with x := 0 }
        else if a = ALIGN_CENTER then
          some { ctx with x := toLong (ulongSub ctx.size.w ctx.crop.w / 2) }
        else if a = ALIGN_RIGHT then
          some { ctx with x := toLong (ulongSub ctx.size.w ctx.crop.w) }
        else some ctx
      else some ctx
  else if Double.lt ctx.size.aspect aspect then
    match Double.toULong (Double.div (Double.ofULong ctx.size.w) aspect) with
    | none => none
    | some ch =>
      let ctx := { ctx with crop := { ctx.crop with h := ch, w := ctx.size.w } }
      if argc > 1 ∧ (argv.getD 1 Value.undefined).IsNumber = true then
        let a := (argv.getD 1 Value.undefined).Uint32Value
        if a = ALIGN_TOP then some { ctx with y := 0 }
        else if a = ALIGN_MIDDLE then
          some { ctx with y := toLong (ulongSub ctx.size.h ctx.crop.h / 2) }
        else if a = ALIGN_BOTTOM then
          some { ctx with y := toLong (ulongSub ctx.size.h ctx.crop.h) }
        else some ctx
      else some ctx
  else some { ctx with cropped := false }

/-- The method `NodeMagick::fnCrop`. -/
def fnCrop (ctx : NodeMagick) (argv : List Value) : Completion Bool :=
  let argc := argv.length
  let aspect := (argv.getD 0 Value.undefined).NumberValue
  if argc < 1 ∨ Double.eq aspect Double.zero = true then
    Completion.typeError "crop( aspect:Number > 0, align:Number )" ctx
  else
    match cropPlan ctx argv aspect with
    | none => Completion.undefinedBehavior
    | some ctx =>
      if ctx.cropped then
        Completion.value true
          { ctx with
            crop := { ctx.crop with
              aspect := Double.div (Double.ofULong ctx.crop.w) (Double.ofULong ctx.crop.h) } }
      else Completion.value false ctx

/-- The method `NodeMagick::fnScale`. -/
def fnScale (ctx : NodeMagick) (argv : List Value) : Completion Unit :=
  let argc := argv.length
  let per := (argv.getD 0 Value.undefined).NumberValue
  if argc < 1 ∨ (argv.getD 0 Value.undefined).IsNumber = false ∨
      Double.le per Double.zero = true then
    Completion.typeError "scale( percentages:Number > 0 )" ctx
  else
    match Double.toULong (Double.mul (Double.div (baseW ctx) (Double.ofULong 100)) per),
      Double.toULong (Double.mul (Double.div (baseH ctx) (Double.ofULong 100)) per) with
    | some rw, some rh =>
      Completion.value ()
        { ctx with scale := per, resize := { ctx.resize with w := rw, h := rh }, resized := true }
    | _, _ => Completion.undefinedBehavior

/-- The method `NodeMagick::fnResize`. -/
def fnResize (ctx : NodeMagick) (argv : List Value) : Completion Unit :=
  let argc := argv.length
  let width := (argv.getD 0 Value.undefined).Uint32Value
  let height := (argv.getD 1 Value.undefined).Uint32Value
  if argc < 2 ∨
      (argv.getD 0 Value.undefined).IsNumber = false ∨ width < 1 ∨
      (argv.getD 1 Value.undefined).IsNumber = false ∨ height < 1 then
    Completion.typeError "resize( width:Number > 0, height:Number > 0 )" ctx
  else if Double.ne (baseW ctx) (Double.ofULong width) ||
      Double.ne (baseH ctx) (Double.ofULong height) then
    Completion.value ()
      { ctx with resize := { ctx.resize with w := width, h := height }, resized := true }
  else Completion.value () ctx

end NodeMagick

/-! ## Sessions and specification-side notions used by the theorems -/

namespace NodeMagick

/-- A session holding a decoded image: `attached` is set, the natural size is at
least `1 × 1` with both sides at most `2^53` (so that they convert to `double`
exactly), and `size.aspect` is what `loadImage` stored for that size. -/
def Loaded (ctx : NodeMagick) : Prop :=
  ctx.attached = true ∧ 1 ≤ ctx.size.w ∧ ctx.size.w ≤ 2 ^ 53 ∧
    1 ≤ ctx.size.h ∧ ctx.size.h ≤ 2 ^ 53 ∧
    ctx.size.aspect = Double.div (Double.ofULong ctx.size.w) (Double.ofULong ctx.size.h)

instance (ctx : NodeMagick) : Decidable (Loaded ctx) := by
  unfold Loaded
  infer_instance

/-- A session that never decoded an image: the size is still what the constructor
stored. -/
def Unloaded (ctx : NodeMagick) : Prop :=
  ctx.attached = false ∧ ctx.size.w = 0 ∧ ctx.size.h = 0 ∧ ctx.size.aspect = Double.ofULong 1

instance (ctx : NodeMagick) : Decidable (Unloaded ctx) := by
  unfold Unloaded
  infer_instance

/-- A library in which every call succeeds and every decoded image is `w × h`. -/
def goodLib (w h : Nat) : MagickLib :=
  { status := fun _ _ => true, exception := fun _ => "", imageFormat := fun _ => "JPEG",
    imageWidth := fun _ => w, imageHeight := fun _ => h }

/-- A fresh object after `load` of a `w × h` image. -/
def sessionOf (w h : Nat) : NodeMagick := (loadImage (goodLib w h) NodeMagick.new "in.jpg").2

/-- From the specification of `Save`: the applicable steps in their fixed order,
(1) crop when `cropActive`, (2) resample when `resizeActive`, (3) quality,
(4) format when `targetFormat` is set, (5) strip the profiles, (6) write. -/
def saveSteps (ctx : NodeMagick) (path : String) : List WandCall :=
  (if ctx.cropped then [WandCall.CropImage ctx.crop.w ctx.crop.h ctx.x ctx.y] else []) ++
  (if ctx.resized then [WandCall.SampleImage ctx.resize.w ctx.resize.h] else []) ++
  [WandCall.SetImageCompressionQuality ctx.quality] ++
  (ctx.format_to.map WandCall.SetFormat).toList ++
  [WandCall.ProfileImage, WandCall.WriteImage path]

/-- From the specification of `Save`: the steps are issued in order on a wand
with call history `hist` and stop after the first one that fails.  The result is
the list of calls made and whether all of them succeeded. -/
def runSteps (lib : MagickLib) : List WandCall → List WandCall → List WandCall × Bool
  | _, [] => ([], true)
  | hist, c :: cs =>
    if lib.status hist c then
      (c :: (runSteps lib (hist ++ [c]) cs).1, (runSteps lib (hist ++ [c]) cs).2)
    else ([c], false)

end NodeMagick

/-- The session a planner call ends with, when it returns normally. -/
def Completion.ctx? {α : Type} : Completion α → Option NodeMagick
  | Completion.value _ ctx => some ctx
  | _ => none

/-- The number `n` as a JavaScript argument. -/
def Value.ofNat (n : Nat) : Value := Value.number (Double.ofULong n)

namespace NodeMagick

/-- The scenario session: a 1000x500 image after `crop(1.0, CENTER)` and `scale(50)`. -/
def plannedSession : NodeMagick :=
  (((fnCrop (sessionOf 1000 500) [Value.ofNat 1, Value.ofNat ALIGN_CENTER]).ctx?.bind
    (fun c => (fnScale c [Value.ofNat 50]).ctx?)).getD NodeMagick.new)

end NodeMagick

/-! ## The remaining planner methods, the accessors and the task coordinator -/

namespace Value

/-- V8 `Value::IsString()`. -/
def IsString : Value → Bool
  | string _ _ => true
  | _ => false

/-- V8 `Value::IsFunction()`. -/
def IsFunction : Value → Bool
  | function => true
  | _ => false

/-- The text of `*String::Utf8Value( v )` for a string argument (the planner only
takes it of values that passed `IsString()`). -/
def Utf8Value : Value → String
  | string s _ => s
  | _ => ""

end Value

namespace NodeMagick

/-- The base aspect of `fnResizeByWidth` and `fnResizeByHeight`: `crop.aspect` when
`cropped`, `size.aspect` otherwise. -/
def baseAspect (ctx : NodeMagick) : Double :=
  if ctx.cropped then ctx.crop.aspect else ctx.size.aspect

/-- The method `NodeMagick::fnResizeByWidth`. -/
def fnResizeByWidth (ctx : NodeMagick) (argv : List Value) : Completion Unit :=
  let argc := argv.length
  let width := (argv.getD 0 Value.undefined).Uint32Value
  if argc < 1 ∨ (argv.getD 0 Value.undefined).IsNumber = false ∨ width < 1 then
    Completion.typeError "resizeByWidth( width:Number > 0 )" ctx
  else if Double.ne (baseW ctx) (Double.ofULong width) then
    match Double.toULong (Double.div (Double.ofULong width) (baseAspect ctx)) with
    | some rh =>
      Completion.value ()
        { ctx with resize := { ctx.resize with w := width, h := rh }, resized := true }
    | none => Completion.undefinedBehavior
  else Completion.value () ctx

/-- The method `NodeMagick::fnResizeByHeight`. -/
def fnResizeByHeight (ctx : NodeMagick) (argv : List Value) : Completion Unit :=
  let argc := argv.length
  let height := (argv.getD 0 Value.undefined).Uint32Value
  if argc < 1 ∨ (argv.getD 0 Value.undefined).IsNumber = false ∨ height < 1 then
    Completion.typeError "resizeByHeight( height:Number > 0 )" ctx
  else if Double.ne (baseH ctx) (Double.ofULong height) then
    match Double.toULong (Double.mul (Double.ofULong height) (baseAspect ctx)) with
    | some rw =>
      Completion.value ()
        { ctx with resize := { ctx.resize with w := rw, h := height }, resized := true }
    | none => Completion.undefinedBehavior
  else Completion.value () ctx

/-- The accessor `NodeMagick::getRawWidth`. -/
def getRawWidth (ctx : NodeMagick) : Value := Value.number (Double.ofULong ctx.size.w)

/-- The accessor `NodeMagick::getRawHeight`. -/
def getRawHeight (ctx : NodeMagick) : Value := Value.number (Double.ofULong ctx.size.h)

/-- The accessor `NodeMagick::getWidth`. -/
def getWidth (ctx : NodeMagick) : Value :=
  Value.number (Double.ofULong (if ctx.resized then ctx.resize.w else ctx.crop.w))

/-- The accessor `NodeMagick::getHeight`. -/
def getHeight (ctx : NodeMagick) : Value :=
  Value.number (Double.ofULong (if ctx.resized then ctx.resize.h else ctx.crop.h))

/-- The accessor `NodeMagick::getQuality`. -/
def getQuality (ctx : NodeMagick) : Value := Value.number (Double.ofULong ctx.quality)

/-- The accessor `NodeMagick::setQuality`; `quality` is an `unsigned int`. -/
def setQuality (ctx : NodeMagick) (val : Value) : NodeMagick :=
  if val.IsNumber then
    let ctx := { ctx with quality := val.Uint32Value }
    if ctx.quality > 100 then { ctx with quality := 100 } else ctx
  else ctx

end NodeMagick

/-- The task bit `ASYNC_TASK_LOAD = 1 << 0`. -/
def ASYNC_TASK_LOAD : Nat := 1
/-- The task bit `ASYNC_TASK_SAVE = 1 << 1`. -/
def ASYNC_TASK_SAVE : Nat := 2

/-- The struct `Baton_t` of a deferred request.  `errstr` is `none` for `NULL`,
`retval` is `none` for `Undefined()` and the error text otherwise; the session
`ctx` points to is passed along separately, and `callback` is the handler. -/
structure Baton_t where
  task : Nat
  errstr : Option String
  udata : String
  retval : Option String
  deriving DecidableEq

/-- What a load or save request does besides changing the session, in order. -/
inductive SysAction where
  | pthread_mutex_lock : SysAction
  | pthread_mutex_unlock : SysAction
  | loadImage (path : String) : SysAction
  | saveImage (path : String) : SysAction
  | eio_custom : SysAction
  deriving DecidableEq

/-- How `fnLoad` and `fnSave` end: they return `Undefined()`, or throw a
`TypeError` with the usage text, or throw an `Error` with the text `loadImage`
or `saveImage` returned. -/
inductive Answer where
  | undefined : Answer
  | typeError (msg : String) : Answer
  | error (msg : String) : Answer
  deriving DecidableEq

/-- The outcome of `fnLoad` or `fnSave`: the answer, the session afterwards, the
actions taken on the caller's thread, and the request queued with `eio_custom`,
if any. -/
structure Request where
  answer : Answer
  ctx : NodeMagick
  actions : List SysAction
  queued : Option Baton_t
  deriving DecidableEq

/-- What `endEIO` hands to the handler: `argv` is the argument array of
`cb->Call( ctx->handle_, 1, argv )` (`none` for `Undefined()`, `some msg` for an
`Error` object), `errstr` the final value of the local variable `errstr`. -/
structure Delivery where
  argv : List (Option String)
  errstr : Option String
  deriving DecidableEq

namespace NodeMagick

/-- The function `NodeMagick::beginEIO`, run on a worker thread.  `lockErr` and
`unlockErr` are `none` when `pthread_mutex_lock` / `pthread_mutex_unlock` return
0 and the text of `strerror(errno)` otherwise. -/
def beginEIO (lib : MagickLib) (lockErr unlockErr : Option String) (baton : Baton_t)
    (ctx : NodeMagick) : Baton_t × NodeMagick × List SysAction :=
  -- failed to lock mutex
  if lockErr.isSome then
    ({ baton with errstr := lockErr }, ctx, [SysAction.pthread_mutex_lock])
  else
    let r : Baton_t × NodeMagick × List SysAction :=
      if baton.task &&& ASYNC_TASK_LOAD ≠ 0 then
        ({ baton with retval := (loadImage lib ctx baton.udata).1 },
          (loadImage lib ctx baton.udata).2, [SysAction.loadImage baton.udata])
      else if baton.task &&& ASYNC_TASK_SAVE ≠ 0 then
        ({ baton with retval := (saveImage lib ctx baton.udata).1 },
          (saveImage lib ctx baton.udata).2, [SysAction.saveImage baton.udata])
      else (baton, ctx, [])
    -- failed to unlock mutex
    let baton := if unlockErr.isSome then { r.1 with errstr := unlockErr } else r.1
    (baton, r.2.1, [SysAction.pthread_mutex_lock] ++ r.2.2 ++ [SysAction.pthread_mutex_unlock])

/-- The function `NodeMagick::endEIO`, run on the caller's thread.  The array
`argv` is initialised with a copy of the handle `errstr` while that still holds
`Undefined()`; the later assignments to `errstr` do not reach the copy. -/
def endEIO (baton : Baton_t) : Delivery :=
  let errstr : Option String := none
  let argv : List (Option String) := [errstr]
  let errstr :=
    if baton.errstr.isSome then baton.errstr
    else if baton.retval.isSome then baton.retval
    else errstr
  { argv := argv, errstr := errstr }

/-- The method `NodeMagick::fnLoad`. -/
def fnLoad (lib : MagickLib) (ctx : NodeMagick) (argv : List Value) : Request :=
  let argc := argv.length
  let callback := decide (argc > 1) && (argv.getD 1 Value.undefined).IsFunction
  if argc < 1 ∨ (argv.getD 0 Value.undefined).IsString = false ∨
      (argv.getD 0 Value.undefined).Utf8Value.length = 0 ∨
      (argc > 1 ∧ (argv.getD 1 Value.undefined).IsFunction = false) then
    { answer := Answer.typeError "load( path_to_image:String, [callback:Function] )",
      ctx := ctx, actions := [], queued := none }
  else if callback then
    { answer := Answer.undefined, ctx := ctx, actions := [SysAction.eio_custom],
      queued := some { task := ASYNC_TASK_LOAD, errstr := none,
                       udata := (argv.getD 0 Value.undefined).Utf8Value, retval := none } }
  else
    let r := loadImage lib ctx (argv.getD 0 Value.undefined).Utf8Value
    -- failed
    match r.1 with
    | some msg =>
      { answer := Answer.error msg, ctx := r.2,
        actions := [SysAction.loadImage (argv.getD 0 Value.undefined).Utf8Value], queued := none }
    | none =>
      { answer := Answer.undefined, ctx := r.2,
        actions := [SysAction.loadImage (argv.getD 0 Value.undefined).Utf8Value], queued := none }

/-- The method `NodeMagick::fnSave`. -/
def fnSave (lib : MagickLib) (ctx : NodeMagick) (argv : List Value) : Request :=
  let argc := argv.length
  let callback := decide (argc > 1) && (argv.getD 1 Value.undefined).IsFunction
  if argc < 1 ∨ (argv.getD 0 Value.undefined).IsString = false ∨
      (argv.getD 0 Value.undefined).Utf8Value.length = 0 ∨
      (argc > 1 ∧ (argv.getD 1 Value.undefined).IsFunction = false) then
    { answer := Answer.typeError "save( path_to_file:String, [callback:Function] )",
      ctx := ctx, actions := [], queued := none }
  else if callback then
    { answer := Answer.undefined, ctx := ctx, actions := [SysAction.eio_custom],
      queued := some { task := ASYNC_TASK_SAVE, errstr := none,
                       udata := (argv.getD 0 Value.undefined).Utf8Value, retval := none } }
  else
    let r := saveImage lib ctx (argv.getD 0 Value.undefined).Utf8Value
    -- failed
    match r.1 with
    | some msg =>
      { answer := Answer.error msg, ctx := r.2,
        actions := [SysAction.saveImage (argv.getD 0 Value.undefined).Utf8Value], queued := none }
    | none =>
      { answer := Answer.undefined, ctx := r.2,
        actions := [SysAction.saveImage (argv.getD 0 Value.undefined).Utf8Value], queued := none }

/-- A library in which every call fails with the diagnostic `msg`. -/
def badLib (msg : String) : MagickLib :=
  { status := fun _ _ => false, exception := fun _ => msg, imageFormat := fun _ => "",
    imageWidth := fun _ => 0, imageHeight := fun _ => 0 }

end NodeMagick

/-- The session a planner call leaves behind, whether it returned or threw its
`TypeError`; `none` when the behaviour is undefined. -/
def Completion.after {α : Type} : Completion α → Option NodeMagick
  | Completion.value _ ctx => some ctx
  | Completion.typeError _ ctx => some ctx
  | Completion.undefinedBehavior => none

namespace NodeMagick

/-- The two sessions agree on every field but `scale`, `resize` and `resized`. -/
def SameButResize (ctx ctx1 : NodeMagick) : Prop :=
  ctx1.wand = ctx.wand ∧ ctx1.attached = ctx.attached ∧ ctx1.format = ctx.format ∧
    ctx1.format_to = ctx.format_to ∧ ctx1.src = ctx.src ∧ ctx1.quality = ctx.quality ∧
    ctx1.cropped = ctx.cropped ∧ ctx1.x = ctx.x ∧ ctx1.y = ctx.y ∧ ctx1.size = ctx.size ∧
    ctx1.crop = ctx.crop

/-- One planner call: `crop`, `scale`, `resize`, `resizeByWidth` or
`resizeByHeight` with any arguments, taking the session from `ctx` to `ctx1`. -/
inductive PlannerStep : NodeMagick → NodeMagick → Prop where
  | crop (ctx ctx1 : NodeMagick) (argv : List Value) :
      (fnCrop ctx argv).after = some ctx1 → PlannerStep ctx ctx1
  | scale (ctx ctx1 : NodeMagick) (argv : List Value) :
      (fnScale ctx argv).after = some ctx1 → PlannerStep ctx ctx1
  | resize (ctx ctx1 : NodeMagick) (argv : List Value) :
      (fnResize ctx argv).after = some ctx1 → PlannerStep ctx ctx1
  | resizeByWidth (ctx ctx1 : NodeMagick) (argv : List Value) :
      (fnResizeByWidth ctx argv).after = some ctx1 → PlannerStep ctx ctx1
  | resizeByHeight (ctx ctx1 : NodeMagick) (argv : List Value) :
      (fnResizeByHeight ctx argv).after = some ctx1 → PlannerStep ctx ctx1

/-- One planner call or one `loadImage` (a reload, successful or not). -/
inductive SessionStep (lib : MagickLib) : NodeMagick → NodeMagick → Prop where
  | planner (ctx ctx1 : NodeMagick) : PlannerStep ctx ctx1 → SessionStep lib ctx ctx1
  | load (ctx : NodeMagick) (path : String) : SessionStep lib ctx (loadImage lib ctx path).2

/-- One planner call whose `crop`, if it is one, has a target aspect `t > 0`. -/
inductive PositivePlannerStep : NodeMagick → NodeMagick → Prop where
  | crop (ctx ctx1 : NodeMagick) (t : Double) (rest : List Value) :
      Double.WF t → Double.lt Double.zero t = true →
      (fnCrop ctx (Value.number t :: rest)).after = some ctx1 → PositivePlannerStep ctx ctx1
  | scale (ctx ctx1 : NodeMagick) (argv : List Value) :
      (fnScale ctx argv).after = some ctx1 → PositivePlannerStep ctx ctx1
  | resize (ctx ctx1 : NodeMagick) (argv : List Value) :
      (fnResize ctx argv).after = some ctx1 → PositivePlannerStep ctx ctx1
  | resizeByWidth (ctx ctx1 : NodeMagick) (argv : List Value) :
      (fnResizeByWidth ctx argv).after = some ctx1 → PositivePlannerStep ctx ctx1
  | resizeByHeight (ctx ctx1 : NodeMagick) (argv : List Value) :
      (fnResizeByHeight ctx argv).after = some ctx1 → PositivePlannerStep ctx ctx1

end NodeMagick

/-! ## Rounding never steps over a binary64 value -/

namespace Double

theorem bitsAux_spec (f : Nat) :
    ∀ n, 0 < n → n ≤ f → 2 ^ bitsAux f n ≤ n ∧ n < 2 ^ (bitsAux f n + 1) := by
  induction f with
  | zero => intro n h1 h2; omega
  | succ f ih =>
    intro n h1 h2
    unfold bitsAux
    split
    · constructor <;> simp <;> omega
    · have h := ih (n / 2) (by omega) (by omega)
      obtain ⟨ha, hb⟩ := h
      constructor
      · rw [pow_succ]; omega
      · rw [pow_succ]; omega

theorem ilog2_spec (n : Nat) (h : 0 < n) : 2 ^ ilog2 n ≤ n ∧ n < 2 ^ (ilog2 n + 1) :=
  bitsAux_spec n n h le_rfl

theorem two_zpow_split (e : ℤ) : (2 : ℚ) ^ e = (2 : ℚ) ^ e.toNat / (2 : ℚ) ^ (-e).toNat := by
  rcases le_total 0 e with h | h
  · have h1 : (-e).toNat = 0 := by omega
    rw [h1, pow_zero, div_one]
    conv_lhs => rw [← Int.toNat_of_nonneg h]
    rw [zpow_natCast]
  · have h1 : e.toNat = 0 := by omega
    rw [h1, pow_zero]
    have h2 : e = -((-e).toNat : ℤ) := by omega
    conv_lhs => rw [h2]
    rw [zpow_neg, zpow_natCast, one_div]


theorem floorLog2_le (n d : Nat) (hn : 0 < n) (hd : 0 < d) :
    (2 : ℚ) ^ floorLog2 n d ≤ (n : ℚ) / d := by
  have hdq : (0 : ℚ) < d := by exact_mod_cast hd
  obtain ⟨hn1, -⟩ := ilog2_spec n hn
  obtain ⟨-, hd2⟩ := ilog2_spec d hd
  unfold floorLog2
  simp only
  split
  · rename_i h
    rw [two_zpow_split, div_le_div_iff₀ (by positivity) hdq]
    have : ((d * 2 ^ ((ilog2 n : ℤ) - (ilog2 d : ℤ)).toNat : ℕ) : ℚ) ≤
        ((n * 2 ^ (-((ilog2 n : ℤ) - (ilog2 d : ℤ))).toNat : ℕ) : ℚ) := by exact_mod_cast h
    push_cast at this
    linarith
  · have h1 : (2 : ℚ) ^ ((ilog2 n : ℤ) - (ilog2 d : ℤ) - 1) =
        (2 : ℚ) ^ ilog2 n / (2 : ℚ) ^ (ilog2 d + 1) := by
      rw [show ((ilog2 n : ℤ) - (ilog2 d : ℤ) - 1) = (ilog2 n : ℤ) - ((ilog2 d + 1 : ℕ) : ℤ) by
        push_cast; ring]
      rw [zpow_sub₀ (by norm_num), zpow_natCast, zpow_natCast]
    rw [h1, div_le_div_iff₀ (by positivity) hdq]
    have a1 : ((2 ^ ilog2 n : ℕ) : ℚ) ≤ (n : ℚ) := by exact_mod_cast hn1
    have a2 : (d : ℚ) ≤ ((2 ^ (ilog2 d + 1) : ℕ) : ℚ) := by exact_mod_cast hd2.le
    push_cast at a1 a2
    have a3 : (0 : ℚ) ≤ (2 : ℚ) ^ ilog2 n := by positivity
    calc (2 : ℚ) ^ ilog2 n * d ≤ (2 : ℚ) ^ ilog2 n * 2 ^ (ilog2 d + 1) :=
          mul_le_mul_of_nonneg_left a2 a3
      _ ≤ n * 2 ^ (ilog2 d + 1) := mul_le_mul_of_nonneg_right a1 (by positivity)

/-- The scaled fraction whose nearest integer is the significand. -/
theorem scaled_eq (n d : Nat) (hd : 0 < d) (e : ℤ) :
    ((n * 2 ^ (-e).toNat : ℕ) : ℚ) / ((d * 2 ^ e.toNat : ℕ) : ℚ) = (n : ℚ) / d / (2 : ℚ) ^ e := by
  have hdq : (d : ℚ) ≠ 0 := by exact_mod_cast hd.ne.symm
  rw [two_zpow_split e]
  push_cast
  field_simp

theorem roundNearestEven_ge (n d : Nat) : n / d ≤ roundNearestEven n d := by
  unfold roundNearestEven
  simp only
  split_ifs <;> omega

theorem roundNearestEven_le (n d k : Nat) (hd : 0 < d) (h : n ≤ k * d) :
    roundNearestEven n d ≤ k := by
  have hq : n / d ≤ k := by
    calc n / d ≤ k * d / d := Nat.div_le_div_right h
      _ = k := Nat.mul_div_cancel k hd
  have hdm := Nat.div_add_mod n d
  unfold roundNearestEven
  simp only
  by_cases hr : n % d = 0
  · have : 2 * (n % d) < d := by omega
    simp [this, hq]
  · have hlt : n / d < k := by
      rcases Nat.lt_or_ge (n / d) k with h1 | h1
      · exact h1
      · exfalso
        have h2 : k = n / d := le_antisymm h1 hq
        have h3 : d * (n / d) + n % d ≤ (n / d) * d := by rw [hdm]; rw [h2] at h; exact h
        rw [Nat.mul_comm] at h3
        omega
    split_ifs <;> omega


theorem ulpExp_big (n d : Nat) (hn : 0 < n) (hd : 0 < d) (h : ulpExp n d ≠ -1074) :
    (2 : ℚ) ^ (ulpExp n d + 52) ≤ (n : ℚ) / d := by
  have h1 : ulpExp n d = floorLog2 n d - 52 := by
    unfold ulpExp at h ⊢
    omega
  rw [h1, sub_add_cancel]
  exact floorLog2_le n d hn hd

/-- A binary64 value `mf * 2^ef` at or above the binade of `2^e` is a multiple of `2^e`. -/
theorem rep_multiple (mf : ℕ) (ef e : ℤ) (h : e ≤ ef) :
    (mf : ℚ) * (2 : ℚ) ^ ef = ((mf * 2 ^ (ef - e).toNat : ℕ) : ℚ) * (2 : ℚ) ^ e := by
  have h1 : ef = ((ef - e).toNat : ℤ) + e := by omega
  conv_lhs => rw [h1]
  rw [zpow_add₀ (by norm_num), zpow_natCast]
  push_cast
  ring

theorem sig_big (n d : Nat) (hn : 0 < n) (hd : 0 < d) (h : ulpExp n d ≠ -1074) :
    2 ^ 52 ≤ roundNearestEven (n * 2 ^ (-(ulpExp n d)).toNat) (d * 2 ^ (ulpExp n d).toNat) := by
  have hb := ulpExp_big n d hn hd h
  have hD : 0 < d * 2 ^ (ulpExp n d).toNat := by positivity
  have hDq : (0 : ℚ) < ((d * 2 ^ (ulpExp n d).toNat : ℕ) : ℚ) := by exact_mod_cast hD
  have hs := scaled_eq n d hd (ulpExp n d)
  have h2 : (0 : ℚ) < (2 : ℚ) ^ (ulpExp n d) := by positivity
  have h3 : ((2 ^ 52 : ℕ) : ℚ) ≤
      ((n * 2 ^ (-(ulpExp n d)).toNat : ℕ) : ℚ) / ((d * 2 ^ (ulpExp n d).toNat : ℕ) : ℚ) := by
    rw [hs, le_div_iff₀ h2]
    rw [zpow_add₀ (by norm_num)] at hb
    have : ((2 ^ 52 : ℕ) : ℚ) = (2 : ℚ) ^ (52 : ℤ) := by norm_num
    rw [this, mul_comm]
    exact hb
  rw [le_div_iff₀ hDq] at h3
  have h4 : 2 ^ 52 * (d * 2 ^ (ulpExp n d).toNat) ≤ n * 2 ^ (-(ulpExp n d)).toNat := by
    exact_mod_cast h3
  exact le_trans ((Nat.le_div_iff_mul_le hD).2 h4) (roundNearestEven_ge _ _)

theorem core_le (n d : Nat) (hn : 0 < n) (hd : 0 < d) (F : ℚ) (hF : Rep F)
    (h : (n : ℚ) / d ≤ F) :
    (roundNearestEven (n * 2 ^ (-(ulpExp n d)).toNat) (d * 2 ^ (ulpExp n d).toNat) : ℚ) *
      (2 : ℚ) ^ (ulpExp n d) ≤ F := by
  obtain ⟨mf, ef, hm, he1, he2, rfl⟩ := hF
  have hD : 0 < d * 2 ^ (ulpExp n d).toNat := by positivity
  have hDq : (0 : ℚ) < ((d * 2 ^ (ulpExp n d).toNat : ℕ) : ℚ) := by exact_mod_cast hD
  have h2 : (0 : ℚ) < (2 : ℚ) ^ (ulpExp n d) := by positivity
  have hle : ulpExp n d ≤ ef := by
    by_cases hc : ulpExp n d = -1074
    · omega
    · have hb := ulpExp_big n d hn hd hc
      have h3 : (2 : ℚ) ^ (ulpExp n d + 52) < (2 : ℚ) ^ (53 + ef) := by
        calc (2 : ℚ) ^ (ulpExp n d + 52) ≤ (mf : ℚ) * (2 : ℚ) ^ ef := le_trans hb h
          _ < (2 : ℚ) ^ (53 : ℤ) * (2 : ℚ) ^ ef := by
              apply mul_lt_mul_of_pos_right _ (by positivity)
              have h9 : ((mf : ℕ) : ℚ) < ((2 ^ 53 : ℕ) : ℚ) := by exact_mod_cast hm
              have h10 : ((2 ^ 53 : ℕ) : ℚ) = (2 : ℚ) ^ (53 : ℤ) := by norm_num
              rw [h10] at h9
              exact h9
          _ = (2 : ℚ) ^ (53 + ef) := by rw [zpow_add₀ (by norm_num)]
      have h4 := (zpow_lt_zpow_iff_right₀ (by norm_num : (1 : ℚ) < 2)).1 h3
      omega
  rw [rep_multiple mf ef _ hle] at h ⊢
  apply mul_le_mul_of_nonneg_right _ h2.le
  have hs := scaled_eq n d hd (ulpExp n d)
  have h5 : ((n * 2 ^ (-(ulpExp n d)).toNat : ℕ) : ℚ) / ((d * 2 ^ (ulpExp n d).toNat : ℕ) : ℚ) ≤
      ((mf * 2 ^ (ef - ulpExp n d).toNat : ℕ) : ℚ) := by
    rw [hs, div_le_iff₀ h2]; exact h
  rw [div_le_iff₀ hDq] at h5
  have h6 : n * 2 ^ (-(ulpExp n d)).toNat ≤
      (mf * 2 ^ (ef - ulpExp n d).toNat) * (d * 2 ^ (ulpExp n d).toNat) := by exact_mod_cast h5
  exact_mod_cast roundNearestEven_le _ _ _ hD h6

theorem core_ge (n d : Nat) (hn : 0 < n) (hd : 0 < d) (F : ℚ) (hF : Rep F)
    (h : F ≤ (n : ℚ) / d) :
    F ≤ (roundNearestEven (n * 2 ^ (-(ulpExp n d)).toNat) (d * 2 ^ (ulpExp n d).toNat) : ℚ) *
      (2 : ℚ) ^ (ulpExp n d) := by
  obtain ⟨mf, ef, hm, he1, he2, rfl⟩ := hF
  have hD : 0 < d * 2 ^ (ulpExp n d).toNat := by positivity
  have hDq : (0 : ℚ) < ((d * 2 ^ (ulpExp n d).toNat : ℕ) : ℚ) := by exact_mod_cast hD
  have h2 : (0 : ℚ) < (2 : ℚ) ^ (ulpExp n d) := by positivity
  rcases le_or_lt (ulpExp n d) ef with hle | hlt
  · rw [rep_multiple mf ef _ hle] at h ⊢
    apply mul_le_mul_of_nonneg_right _ h2.le
    have hs := scaled_eq n d hd (ulpExp n d)
    have h5 : ((mf * 2 ^ (ef - ulpExp n d).toNat : ℕ) : ℚ) ≤
        ((n * 2 ^ (-(ulpExp n d)).toNat : ℕ) : ℚ) / ((d * 2 ^ (ulpExp n d).toNat : ℕ) : ℚ) := by
      rw [hs, le_div_iff₀ h2]; exact h
    rw [le_div_iff₀ hDq] at h5
    have h6 : (mf * 2 ^ (ef - ulpExp n d).toNat) * (d * 2 ^ (ulpExp n d).toNat) ≤
        n * 2 ^ (-(ulpExp n d)).toNat := by exact_mod_cast h5
    exact_mod_cast le_trans ((Nat.le_div_iff_mul_le hD).2 h6) (roundNearestEven_ge _ _)
  · have hc : ulpExp n d ≠ -1074 := by omega
    have hs := sig_big n d hn hd hc
    have hsq : ((2 ^ 52 : ℕ) : ℚ) ≤
        (roundNearestEven (n * 2 ^ (-(ulpExp n d)).toNat) (d * 2 ^ (ulpExp n d).toNat) : ℚ) := by
      exact_mod_cast hs
    have hmq : ((mf : ℕ) : ℚ) ≤ ((2 ^ 53 : ℕ) : ℚ) := by exact_mod_cast hm.le
    have h7 : (2 : ℚ) ^ ef ≤ (2 : ℚ) ^ (ulpExp n d - 1) :=
      zpow_le_zpow_right₀ (by norm_num) (by omega)
    calc (mf : ℚ) * (2 : ℚ) ^ ef ≤ ((2 ^ 53 : ℕ) : ℚ) * (2 : ℚ) ^ (ulpExp n d - 1) :=
          mul_le_mul hmq h7 (by positivity) (by positivity)
      _ = ((2 ^ 52 : ℕ) : ℚ) * (2 : ℚ) ^ (ulpExp n d) := by
          rw [zpow_sub₀ (by norm_num)]; push_cast; ring
      _ ≤ _ := mul_le_mul_of_nonneg_right hsq h2.le


theorem Rep.nonneg {F : ℚ} (hF : Rep F) : 0 ≤ F := by
  obtain ⟨mf, ef, -, -, -, rfl⟩ := hF
  positivity

theorem Rep.lt_top {F : ℚ} (hF : Rep F) : F < (2 : ℚ) ^ (1024 : ℤ) := by
  obtain ⟨mf, ef, hm, -, he, rfl⟩ := hF
  have h9 : ((mf : ℕ) : ℚ) < ((2 ^ 53 : ℕ) : ℚ) := by exact_mod_cast hm
  have h10 : ((2 ^ 53 : ℕ) : ℚ) = (2 : ℚ) ^ (53 : ℤ) := by norm_num
  rw [h10] at h9
  calc (mf : ℚ) * (2 : ℚ) ^ ef < (2 : ℚ) ^ (53 : ℤ) * (2 : ℚ) ^ ef :=
        mul_lt_mul_of_pos_right h9 (by positivity)
    _ = (2 : ℚ) ^ (53 + ef) := by rw [zpow_add₀ (by norm_num)]
    _ ≤ (2 : ℚ) ^ (1024 : ℤ) := zpow_le_zpow_right₀ (by norm_num) (by omega)

/-- Renormalising a significand of `2^53` keeps the value. -/
theorem renorm_val (m : ℕ) (e : ℤ) :
    (((if m = 2 ^ 53 then 2 ^ 52 else m : ℕ) : ℚ)) * (2 : ℚ) ^ (if m = 2 ^ 53 then e + 1 else e) =
      (m : ℚ) * (2 : ℚ) ^ e := by
  split_ifs with h
  · rw [h, zpow_add₀ (by norm_num)]
    push_cast
    ring
  · rfl

/-- Rounding does not step over a binary64 value from below. -/
theorem roundPos_le (s : Bool) (n d : Nat) (hd : 0 < d) (F : ℚ) (hF : Rep F)
    (h : (n : ℚ) / d ≤ F) :
    ∃ m e, roundPos s n d = fin s m e ∧ (m : ℚ) * (2 : ℚ) ^ e ≤ F := by
  unfold roundPos
  by_cases hn : n = 0
  · refine ⟨0, -1074, by simp [hn], ?_⟩
    simpa using hF.nonneg
  · have hn0 : 0 < n := Nat.pos_of_ne_zero hn
    have hc := core_le n d hn0 hd F hF h
    simp only [hn, if_false]
    rw [← renorm_val] at hc
    have hgood : ¬ (971 < (if roundNearestEven (n * 2 ^ (-(ulpExp n d)).toNat)
        (d * 2 ^ (ulpExp n d).toNat) = 2 ^ 53 then ulpExp n d + 1 else ulpExp n d)) := by
      intro hbad
      have hne : ulpExp n d ≠ -1074 := by
        split_ifs at hbad <;> omega
      have hs := sig_big n d hn0 hd hne
      have hm1 : ((2 ^ 52 : ℕ) : ℚ) ≤ (((if roundNearestEven (n * 2 ^ (-(ulpExp n d)).toNat)
          (d * 2 ^ (ulpExp n d).toNat) = 2 ^ 53 then 2 ^ 52 else
          roundNearestEven (n * 2 ^ (-(ulpExp n d)).toNat) (d * 2 ^ (ulpExp n d).toNat) : ℕ)) : ℚ) := by
        split_ifs
        · exact le_rfl
        · exact_mod_cast hs
      have h1 : (2 : ℚ) ^ (972 : ℤ) ≤ (2 : ℚ) ^ (if roundNearestEven (n * 2 ^ (-(ulpExp n d)).toNat)
          (d * 2 ^ (ulpExp n d).toNat) = 2 ^ 53 then ulpExp n d + 1 else ulpExp n d) :=
        zpow_le_zpow_right₀ (by norm_num) (by omega)
      have h2 := mul_le_mul hm1 h1 (by positivity) (by positivity)
      have h3 : ((2 ^ 52 : ℕ) : ℚ) * (2 : ℚ) ^ (972 : ℤ) = (2 : ℚ) ^ (1024 : ℤ) := by norm_num
      rw [h3] at h2
      exact absurd (lt_of_le_of_lt (le_trans h2 hc) hF.lt_top) (lt_irrefl _)
    rw [if_neg hgood]
    exact ⟨_, _, rfl, hc⟩

/-- Rounding does not step over a binary64 value from above. -/
theorem roundPos_ge (s : Bool) (n d : Nat) (hd : 0 < d) (F : ℚ) (hF : Rep F)
    (h : F ≤ (n : ℚ) / d) :
    roundPos s n d = inf s ∨ ∃ m e, roundPos s n d = fin s m e ∧ F ≤ (m : ℚ) * (2 : ℚ) ^ e := by
  unfold roundPos
  by_cases hn : n = 0
  · right
    refine ⟨0, -1074, by simp [hn], ?_⟩
    simpa [hn] using h
  · have hn0 : 0 < n := Nat.pos_of_ne_zero hn
    have hc := core_ge n d hn0 hd F hF h
    simp only [hn, if_false]
    rw [← renorm_val] at hc
    by_cases hbad : 971 < (if roundNearestEven (n * 2 ^ (-(ulpExp n d)).toNat)
        (d * 2 ^ (ulpExp n d).toNat) = 2 ^ 53 then ulpExp n d + 1 else ulpExp n d)
    · left; rw [if_pos hbad]
    · right; rw [if_neg hbad]; exact ⟨_, _, rfl, hc⟩


theorem signed_scaled (s : Bool) (m : ℕ) (e c : ℤ) (h : c ≤ e) :
    ((signed s (m * 2 ^ (e - c).toNat) : ℤ) : ℚ) * (2 : ℚ) ^ c = val (fin s m e) := by
  have h1 := rep_multiple m e c h
  unfold signed val
  cases s
  · simp only [Bool.false_eq_true, if_false, one_mul]
    rw [h1]
    push_cast
    ring
  · simp only [if_true]
    rw [mul_assoc, h1]
    push_cast
    ring

theorem lt_fin (s t : Bool) (m1 m2 : ℕ) (e1 e2 : ℤ) :
    lt (fin s m1 e1) (fin t m2 e2) = true ↔ val (fin s m1 e1) < val (fin t m2 e2) := by
  have hp : (0 : ℚ) < (2 : ℚ) ^ (min e1 e2) := by positivity
  rw [← signed_scaled s m1 e1 (min e1 e2) (min_le_left _ _),
    ← signed_scaled t m2 e2 (min e1 e2) (min_le_right _ _), mul_lt_mul_right hp, Int.cast_lt]
  simp [lt]

theorem eq_fin (s t : Bool) (m1 m2 : ℕ) (e1 e2 : ℤ) :
    eq (fin s m1 e1) (fin t m2 e2) = true ↔ val (fin s m1 e1) = val (fin t m2 e2) := by
  have hp : (2 : ℚ) ^ (min e1 e2) ≠ 0 := by positivity
  rw [← signed_scaled s m1 e1 (min e1 e2) (min_le_left _ _),
    ← signed_scaled t m2 e2 (min e1 e2) (min_le_right _ _), mul_left_inj' hp, Int.cast_inj]
  simp [eq]

theorem val_pos (m : ℕ) (e : ℤ) : val (fin false m e) = (m : ℚ) * (2 : ℚ) ^ e := by
  simp [val]

theorem Rep_of_WF (m : ℕ) (e : ℤ) (h : WF (fin false m e)) : Rep ((m : ℚ) * (2 : ℚ) ^ e) :=
  ⟨m, e, h.1, h.2.1, h.2.2, rfl⟩

theorem Rep_nat (W : ℕ) (h : W ≤ 2 ^ 53) : Rep (W : ℚ) := by
  rcases Nat.lt_or_ge W (2 ^ 53) with h1 | h1
  · exact ⟨W, 0, h1, by norm_num, by norm_num, by simp⟩
  · have : W = 2 ^ 53 := le_antisymm h h1
    refine ⟨2 ^ 52, 1, by norm_num, by norm_num, by norm_num, ?_⟩
    rw [this]
    norm_num

/-- Unsigned integers up to `2^53` convert to `double` exactly. -/
theorem ofULong_exact (W : ℕ) (h : W ≤ 2 ^ 53) :
    ∃ m e, ofULong W = fin false m e ∧ (m : ℚ) * (2 : ℚ) ^ e = W := by
  have hx : ((W : ℕ) : ℚ) / ((1 : ℕ) : ℚ) = (W : ℚ) := by simp
  obtain ⟨m, e, h1, h2⟩ := roundPos_le false W 1 Nat.one_pos W (Rep_nat W h) hx.le
  rcases roundPos_ge false W 1 Nat.one_pos W (Rep_nat W h) hx.ge with h3 | ⟨m', e', h3, h4⟩
  · rw [h1] at h3; cases h3
  · rw [h1] at h3
    cases h3
    exact ⟨m, e, h1, le_antisymm h2 h4⟩

theorem toULong_le (m : ℕ) (e : ℤ) (B : ℕ) (hB : B < 2 ^ 64) (h : (m : ℚ) * (2 : ℚ) ^ e ≤ B) :
    ∃ k, toULong (fin false m e) = some k ∧ k ≤ B := by
  have h1 : ((m * 2 ^ e.toNat / 2 ^ (-e).toNat : ℕ) : ℚ) ≤ (m : ℚ) * (2 : ℚ) ^ e := by
    rw [two_zpow_split e]
    calc ((m * 2 ^ e.toNat / 2 ^ (-e).toNat : ℕ) : ℚ)
        ≤ ((m * 2 ^ e.toNat : ℕ) : ℚ) / ((2 ^ (-e).toNat : ℕ) : ℚ) := Nat.cast_div_le
      _ = (m : ℚ) * ((2 : ℚ) ^ e.toNat / (2 : ℚ) ^ (-e).toNat) := by push_cast; ring
  have h2 : m * 2 ^ e.toNat / 2 ^ (-e).toNat ≤ B := by exact_mod_cast le_trans h1 h
  refine ⟨m * 2 ^ e.toNat / 2 ^ (-e).toNat, ?_, h2⟩
  have h3 : ((m * 2 ^ e.toNat / 2 ^ (-e).toNat : ℕ) : ℤ) < 2 ^ 64 := by
    have : m * 2 ^ e.toNat / 2 ^ (-e).toNat < 2 ^ 64 := lt_of_le_of_lt h2 hB
    exact_mod_cast this
  simp only [toULong, trunc, signed, Bool.false_eq_true, if_false]
  rw [if_pos ⟨Int.natCast_nonneg _, h3⟩]
  rfl

theorem mul_fin (m1 m2 : ℕ) (e1 e2 : ℤ) :
    mul (fin false m1 e1) (fin false m2 e2) =
      roundPos false (m1 * m2 * 2 ^ (e1 + e2).toNat) (2 ^ (-(e1 + e2)).toNat) := rfl

theorem mul_fin_val (m1 m2 : ℕ) (e1 e2 : ℤ) :
    ((m1 * m2 * 2 ^ (e1 + e2).toNat : ℕ) : ℚ) / ((2 ^ (-(e1 + e2)).toNat : ℕ) : ℚ) =
      ((m1 : ℚ) * (2 : ℚ) ^ e1) * ((m2 : ℚ) * (2 : ℚ) ^ e2) := by
  have h := two_zpow_split (e1 + e2)
  rw [zpow_add₀ (by norm_num)] at h
  push_cast
  rw [mul_div_assoc, ← h]
  ring

theorem div_fin (m1 m2 : ℕ) (e1 e2 : ℤ) (h : m2 ≠ 0) :
    div (fin false m1 e1) (fin false m2 e2) =
      roundPos false (m1 * 2 ^ (e1 - e2).toNat) (m2 * 2 ^ (e2 - e1).toNat) := by
  simp [div, h]

theorem div_fin_val (m1 m2 : ℕ) (e1 e2 : ℤ) (h : m2 ≠ 0) :
    ((m1 * 2 ^ (e1 - e2).toNat : ℕ) : ℚ) / ((m2 * 2 ^ (e2 - e1).toNat : ℕ) : ℚ) =
      ((m1 : ℚ) * (2 : ℚ) ^ e1) / ((m2 : ℚ) * (2 : ℚ) ^ e2) := by
  have h1 := two_zpow_split (e1 - e2)
  rw [zpow_sub₀ (by norm_num)] at h1
  have h2 : (-(e1 - e2)).toNat = (e2 - e1).toNat := by congr 1; ring
  rw [h2] at h1
  have hm : (m2 : ℚ) ≠ 0 := by exact_mod_cast h
  have hp1 : (2 : ℚ) ^ e2 ≠ 0 := by positivity
  have hp2 : (2 : ℚ) ^ (e2 - e1).toNat ≠ 0 := by positivity
  push_cast
  field_simp
  field_simp at h1
  linear_combination (-((m1 : ℚ) * (m2 : ℚ))) * h1


theorem pos_cases (t : Double) (h : lt zero t = true) :
    t = inf false ∨ ∃ m e, t = fin false m e ∧ 0 < m := by
  cases t with
  | nan => simp [lt, zero] at h
  | inf s =>
    left
    cases s
    · rfl
    · simp [lt, zero] at h
  | fin s m e =>
    right
    unfold zero at h
    rw [lt_fin] at h
    have hp : (0 : ℚ) < (2 : ℚ) ^ e := by positivity
    cases s
    · refine ⟨m, e, rfl, ?_⟩
      rw [val_pos, val_pos] at h
      rcases Nat.eq_zero_or_pos m with h0 | h0
      · rw [h0] at h; simp at h
      · exact h0
    · exfalso
      have h1 : val (fin true m e) ≤ 0 := by
        simp only [val, if_true]
        have : (0 : ℚ) ≤ (m : ℚ) * (2 : ℚ) ^ e := by positivity
        linarith
      have h2 : val (fin false 0 (-1074)) = 0 := by simp [val]
      rw [h2] at h
      exact absurd (lt_of_lt_of_le h h1) (lt_irrefl _)

/-- In the wide branch of `fnCrop` the computed crop width is in range and does
not exceed the natural width. -/
theorem crop_wide_bound (W H : ℕ) (hW : W ≤ 2 ^ 53) (hH1 : 1 ≤ H) (hH : H ≤ 2 ^ 53)
    (t : Double) (ht : WF t) (hpos : lt zero t = true)
    (h : lt t (div (ofULong W) (ofULong H)) = true) :
    ∃ cw, toULong (mul (ofULong H) t) = some cw ∧ cw ≤ W := by
  obtain ⟨mW, eW, hWd, hWv⟩ := ofULong_exact W hW
  obtain ⟨mH, eH, hHd, hHv⟩ := ofULong_exact H hH
  have hHq : (0 : ℚ) < (H : ℚ) := by exact_mod_cast hH1
  have hmH : mH ≠ 0 := by
    rintro rfl
    simp at hHv
    linarith
  rw [hWd, hHd, div_fin mW mH eW eH hmH] at h
  rw [hHd]
  rcases pos_cases t hpos with rfl | ⟨mt, et, rfl, hmt⟩
  · exfalso
    generalize roundPos false (mW * 2 ^ (eW - eH).toNat) (mH * 2 ^ (eH - eW).toNat) = A at h
    cases A <;> simp [lt] at h
  · have hD : 0 < mH * 2 ^ (eH - eW).toNat := by positivity
    have hlt : (mt : ℚ) * (2 : ℚ) ^ et < (W : ℚ) / H := by
      by_contra hc
      rw [not_lt, ← hWv, ← hHv, ← div_fin_val mW mH eW eH hmH] at hc
      obtain ⟨m, e, hA, hAv⟩ := roundPos_le false _ _ hD _ (Rep_of_WF mt et ht) hc
      rw [hA, lt_fin, val_pos, val_pos] at h
      exact absurd (lt_of_lt_of_le h hAv) (lt_irrefl _)
    have hprod : ((mH * mt * 2 ^ (eH + et).toNat : ℕ) : ℚ) / ((2 ^ (-(eH + et)).toNat : ℕ) : ℚ) ≤
        (W : ℚ) := by
      rw [mul_fin_val, hHv]
      rw [lt_div_iff₀ hHq] at hlt
      linarith
    rw [mul_fin]
    obtain ⟨m, e, hP, hPv⟩ := roundPos_le false _ _ (by positivity) _ (Rep_nat W hW) hprod
    rw [hP]
    exact toULong_le m e W (lt_of_le_of_lt hW (by norm_num)) hPv

/-- In the tall branch of `fnCrop` the computed crop height is in range and does
not exceed the natural height. -/
theorem crop_tall_bound (W H : ℕ) (hW : W ≤ 2 ^ 53) (hH1 : 1 ≤ H) (hH : H ≤ 2 ^ 53)
    (t : Double) (ht : WF t) (hpos : lt zero t = true)
    (h : lt (div (ofULong W) (ofULong H)) t = true) :
    ∃ ch, toULong (div (ofULong W) t) = some ch ∧ ch ≤ H := by
  obtain ⟨mW, eW, hWd, hWv⟩ := ofULong_exact W hW
  obtain ⟨mH, eH, hHd, hHv⟩ := ofULong_exact H hH
  have hHq : (0 : ℚ) < (H : ℚ) := by exact_mod_cast hH1
  have hmH : mH ≠ 0 := by
    rintro rfl
    simp at hHv
    linarith
  rw [hWd, hHd, div_fin mW mH eW eH hmH] at h
  rw [hWd]
  rcases pos_cases t hpos with rfl | ⟨mt, et, rfl, hmt⟩
  · refine ⟨0, ?_, Nat.zero_le _⟩
    simp only [div, toULong, trunc, signed, Nat.zero_mul, Nat.zero_div]
    rfl
  · have hD : 0 < mH * 2 ^ (eH - eW).toNat := by positivity
    have hmt0 : mt ≠ 0 := hmt.ne.symm
    have htq : (0 : ℚ) < (mt : ℚ) * (2 : ℚ) ^ et := by
      have : (0 : ℚ) < (mt : ℚ) := by exact_mod_cast hmt
      positivity
    have hlt : (W : ℚ) / H < (mt : ℚ) * (2 : ℚ) ^ et := by
      by_contra hc
      rw [not_lt, ← hWv, ← hHv, ← div_fin_val mW mH eW eH hmH] at hc
      rcases roundPos_ge false _ _ hD _ (Rep_of_WF mt et ht) hc with hA | ⟨m, e, hA, hAv⟩
      · rw [hA] at h; simp [lt] at h
      · rw [hA, lt_fin, val_pos, val_pos] at h
        exact absurd (lt_of_le_of_lt hAv h) (lt_irrefl _)
    have hquot : ((mW * 2 ^ (eW - et).toNat : ℕ) : ℚ) / ((mt * 2 ^ (et - eW).toNat : ℕ) : ℚ) ≤
        (H : ℚ) := by
      rw [div_fin_val mW mt eW et hmt0, hWv, div_le_iff₀ htq]
      rw [div_lt_iff₀ hHq] at hlt
      linarith
    rw [div_fin mW mt eW et hmt0]
    obtain ⟨m, e, hP, hPv⟩ := roundPos_le false _ _ (by positivity) _ (Rep_nat H hH) hquot
    rw [hP]
    exact toULong_le m e H (lt_of_le_of_lt hH (by norm_num)) hPv

end Double

/-! ## Comparison facts -/

namespace Double

theorem lt_asymm (a b : Double) (h : lt a b = true) : lt b a = false := by
  cases a with
  | nan => simp [lt] at h
  | inf s =>
    cases b with
    | nan => simp [lt] at h
    | inf t => cases s <;> cases t <;> simp_all [lt]
    | fin t m e => cases s <;> simp_all [lt]
  | fin s m e =>
    cases b with
    | nan => simp [lt] at h
    | inf t => cases t <;> simp_all [lt]
    | fin t m2 e2 =>
      rw [lt_fin] at h
      rw [Bool.eq_false_iff, Ne, lt_fin]
      exact not_lt.2 h.le

theorem ne_iff_lt_or_lt (a b : Double) (ha : a ≠ nan) (hb : b ≠ nan) :
    ne a b = true ↔ (lt a b = true ∨ lt b a = true) := by
  cases a with
  | nan => exact absurd rfl ha
  | inf s =>
    cases b with
    | nan => exact absurd rfl hb
    | inf t => cases s <;> cases t <;> simp [ne, eq, lt]
    | fin t m e => cases s <;> simp [ne, eq, lt]
  | fin s m e =>
    cases b with
    | nan => exact absurd rfl hb
    | inf t => cases t <;> simp [ne, eq, lt]
    | fin t m2 e2 =>
      rw [lt_fin, lt_fin]
      unfold ne
      rw [Bool.not_eq_true', Bool.eq_false_iff, Ne, eq_fin]
      exact lt_or_lt_iff_ne.symm

theorem roundPos_ne_nan (s : Bool) (n d : ℕ) : roundPos s n d ≠ nan := by
  unfold roundPos
  simp only
  split_ifs <;> simp

theorem aspect_ne_nan (W H : ℕ) (hW : W ≤ 2 ^ 53) (hH1 : 1 ≤ H) (hH : H ≤ 2 ^ 53) :
    div (ofULong W) (ofULong H) ≠ nan := by
  obtain ⟨mW, eW, hWd, hWv⟩ := ofULong_exact W hW
  obtain ⟨mH, eH, hHd, hHv⟩ := ofULong_exact H hH
  have hHq : (0 : ℚ) < (H : ℚ) := by exact_mod_cast hH1
  have hmH : mH ≠ 0 := by
    rintro rfl
    simp at hHv
    linarith
  rw [hWd, hHd, div_fin mW mH eW eH hmH]
  exact roundPos_ne_nan _ _ _

theorem pos_ne_nan (t : Double) (h : lt zero t = true) : t ≠ nan := by
  rintro rfl
  simp [lt, zero] at h

theorem pos_ne_zero (t : Double) (h : lt zero t = true) : eq t zero = false := by
  rcases pos_cases t h with rfl | ⟨m, e, rfl, hm⟩
  · rfl
  · rw [Bool.eq_false_iff, Ne, zero, eq_fin, val_pos, val_pos]
    have h1 : (0 : ℚ) < (m : ℚ) := by exact_mod_cast hm
    have h2 : (0 : ℚ) < (m : ℚ) * (2 : ℚ) ^ e := by positivity
    simp only [Nat.cast_zero, zero_mul]
    exact h2.ne.symm

end Double

/-! ## The crop planner -/

namespace NodeMagick

theorem ulongSub_of_le (a b : ℕ) (ha : a < 2 ^ 64) (h : b ≤ a) : ulongSub a b = a - b := by
  unfold ulongSub
  have hb : b % 2 ^ 64 = b := Nat.mod_eq_of_lt (lt_of_le_of_lt h ha)
  rw [hb]
  have : a + 2 ^ 64 - b = (a - b) + 2 ^ 64 := by omega
  rw [this, Nat.add_mod_right]
  exact Nat.mod_eq_of_lt (by omega)

theorem toLong_of_lt (n : ℕ) (h : n < 2 ^ 63) : toLong n = (n : ℤ) := by
  unfold toLong
  rw [if_pos h]

/-- The wide branch of `cropPlan`, with the alignment switch spelled out. -/
theorem cropPlan_wide (ctx : NodeMagick) (argv : List Value) (t : Double) (cw : ℕ)
    (h : Double.lt t ctx.size.aspect = true)
    (hcw : Double.toULong (Double.mul (Double.ofULong ctx.size.h) t) = some cw) :
    cropPlan ctx argv t = some
      { ctx with
        cropped := true
        crop := { ctx.crop with w := cw, h := ctx.size.h }
        x := if argv.length > 1 ∧ (argv.getD 1 Value.undefined).IsNumber = true then
            (if (argv.getD 1 Value.undefined).Uint32Value = ALIGN_LEFT then 0
             else if (argv.getD 1 Value.undefined).Uint32Value = ALIGN_CENTER then
               toLong (ulongSub ctx.size.w cw / 2)
             else if (argv.getD 1 Value.undefined).Uint32Value = ALIGN_RIGHT then
               toLong (ulongSub ctx.size.w cw)
             else ctx.x)
          else ctx.x } := by
  unfold cropPlan
  simp only [h, hcw, if_true]
  split_ifs <;> rfl

/-- The tall branch of `cropPlan`, with the alignment switch spelled out. -/
theorem cropPlan_tall (ctx : NodeMagick) (argv : List Value) (t : Double) (ch : ℕ)
    (h : Double.lt ctx.size.aspect t = true)
    (hch : Double.toULong (Double.div (Double.ofULong ctx.size.w) t) = some ch) :
    cropPlan ctx argv t = some
      { ctx with
        cropped := true
        crop := { ctx.crop with w := ctx.size.w, h := ch }
        y := if argv.length > 1 ∧ (argv.getD 1 Value.undefined).IsNumber = true then
            (if (argv.getD 1 Value.undefined).Uint32Value = ALIGN_TOP then 0
             else if (argv.getD 1 Value.undefined).Uint32Value = ALIGN_MIDDLE then
               toLong (ulongSub ctx.size.h ch / 2)
             else if (argv.getD 1 Value.undefined).Uint32Value = ALIGN_BOTTOM then
               toLong (ulongSub ctx.size.h ch)
             else ctx.y)
          else ctx.y } := by
  have h2 : Double.lt t ctx.size.aspect = false := Double.lt_asymm _ _ h
  unfold cropPlan
  simp only [h, h2, hch, if_true]
  split_ifs <;> first | rfl | simp_all

/-- The remaining branch of `cropPlan`: the aspects compare equal (or unordered). -/
theorem cropPlan_same (ctx : NodeMagick) (argv : List Value) (t : Double)
    (h1 : Double.lt t ctx.size.aspect = false) (h2 : Double.lt ctx.size.aspect t = false) :
    cropPlan ctx argv t = some { ctx with cropped := false } := by
  unfold cropPlan
  simp [h1, h2]

theorem fnCrop_checked (ctx : NodeMagick) (t : Double) (rest : List Value)
    (hpos : Double.lt Double.zero t = true) :
    fnCrop ctx (Value.number t :: rest) =
      match cropPlan ctx (Value.number t :: rest) t with
      | none => Completion.undefinedBehavior
      | some ctx =>
        if ctx.cropped then
          Completion.value true
            { ctx with
              crop := { ctx.crop with
                aspect := Double.div (Double.ofULong ctx.crop.w) (Double.ofULong ctx.crop.h) } }
        else Completion.value false ctx := by
  have h0 := Double.pos_ne_zero t hpos
  unfold fnCrop
  simp [Value.NumberValue, h0]

end NodeMagick

namespace NodeMagick

/-- A successful `loadImage` of an image whose sides lie in `[1, 2^53]` leaves a
loaded session. -/
theorem loadImage_Loaded (lib : MagickLib) (ctx : NodeMagick) (path : String)
    (hok : lib.status (if ctx.attached then [] else ctx.wand) (WandCall.ReadImage path) = true)
    (hw1 : 1 ≤ lib.imageWidth
      ((if ctx.attached then [] else ctx.wand) ++ [WandCall.ReadImage path]))
    (hw2 : lib.imageWidth
      ((if ctx.attached then [] else ctx.wand) ++ [WandCall.ReadImage path]) ≤ 2 ^ 53)
    (hh1 : 1 ≤ lib.imageHeight
      ((if ctx.attached then [] else ctx.wand) ++ [WandCall.ReadImage path]))
    (hh2 : lib.imageHeight
      ((if ctx.attached then [] else ctx.wand) ++ [WandCall.ReadImage path]) ≤ 2 ^ 53) :
    Loaded (loadImage lib ctx path).2 := by
  unfold loadImage Loaded
  cases ha : ctx.attached <;> simp_all <;> omega

end NodeMagick

namespace NodeMagick

/-- C1: on a loaded session, for a target aspect `t > 0` and an alignment code
1, 2 or 3: when the natural aspect exceeds `t`, `crop` returns `true` with
`crop.h = H`, `crop.w = trunc(H * t)` (which is at most `W`) and `x` equal to `0`,
`(W - crop.w) / 2` or `W - crop.w` for LEFT, CENTER, RIGHT, all other fields but
`cropped` and `crop.aspect` as before; when the natural aspect is below `t`,
`crop.w = W`, `crop.h = trunc(W / t)` and `y` is `0`, `(H - crop.h) / 2` or
`H - crop.h` for TOP, MIDDLE, BOTTOM. -/
theorem fnCrop_geometry (ctx : NodeMagick) (hl : Loaded ctx) (t a : Double)
    (ht : Double.WF t) (hpos : Double.lt Double.zero t = true)
    (ha : a.Uint32Value = ALIGN_LEFT ∨ a.Uint32Value = ALIGN_CENTER ∨
      a.Uint32Value = ALIGN_RIGHT) :
    (Double.lt t ctx.size.aspect = true →
      ∃ cw : ℕ, ∃ x : ℤ,
        Double.toULong (Double.mul (Double.ofULong ctx.size.h) t) = some cw ∧
        cw ≤ ctx.size.w ∧
        (a.Uint32Value = ALIGN_LEFT → x = 0) ∧
        (a.Uint32Value = ALIGN_CENTER → x = ((ctx.size.w - cw) / 2 : ℕ)) ∧
        (a.Uint32Value = ALIGN_RIGHT → x = (ctx.size.w - cw : ℕ)) ∧
        fnCrop ctx [Value.number t, Value.number a] = Completion.value true
          { ctx with
            cropped := true
            crop := { w := cw, h := ctx.size.h,
                      aspect := Double.div (Double.ofULong cw) (Double.ofULong ctx.size.h) }
            x := x }) ∧
    (Double.lt ctx.size.aspect t = true →
      ∃ ch : ℕ, ∃ y : ℤ,
        Double.toULong (Double.div (Double.ofULong ctx.size.w) t) = some ch ∧
        ch ≤ ctx.size.h ∧
        (a.Uint32Value = ALIGN_TOP → y = 0) ∧
        (a.Uint32Value = ALIGN_MIDDLE → y = ((ctx.size.h - ch) / 2 : ℕ)) ∧
        (a.Uint32Value = ALIGN_BOTTOM → y = (ctx.size.h - ch : ℕ)) ∧
        fnCrop ctx [Value.number t, Value.number a] = Completion.value true
          { ctx with
            cropped := true
            crop := { w := ctx.size.w, h := ch,
                      aspect := Double.div (Double.ofULong ctx.size.w) (Double.ofULong ch) }
            y := y }) := by
  obtain ⟨-, hW1, hW, hH1, hH, hA⟩ := hl
  have hW64 : ctx.size.w < 2 ^ 64 := lt_of_le_of_lt hW (by norm_num)
  have hH64 : ctx.size.h < 2 ^ 64 := lt_of_le_of_lt hH (by norm_num)
  have hcode : (Value.number a).Uint32Value = a.Uint32Value := rfl
  constructor
  · intro h
    obtain ⟨cw, hcw, hle⟩ :=
      Double.crop_wide_bound ctx.size.w ctx.size.h hW hH1 hH t ht hpos (hA ▸ h)
    have hs := ulongSub_of_le ctx.size.w cw hW64 hle
    have hl1 : toLong (ctx.size.w - cw) = ((ctx.size.w - cw : ℕ) : ℤ) :=
      toLong_of_lt _ (by omega)
    have hl2 : toLong ((ctx.size.w - cw) / 2) = (((ctx.size.w - cw) / 2 : ℕ) : ℤ) :=
      toLong_of_lt _ (by omega)
    refine ⟨cw, if a.Uint32Value = ALIGN_LEFT then 0
      else if a.Uint32Value = ALIGN_CENTER then (((ctx.size.w - cw) / 2 : ℕ) : ℤ)
      else ((ctx.size.w - cw : ℕ) : ℤ), hcw, hle, ?_, ?_, ?_, ?_⟩
    · intro h1; rw [if_pos h1]
    · intro h1
      have : ¬ a.Uint32Value = ALIGN_LEFT := by rw [h1]; decide
      rw [if_neg this, if_pos h1]
    · intro h1
      have n1 : ¬ a.Uint32Value = ALIGN_LEFT := by rw [h1]; decide
      have n2 : ¬ a.Uint32Value = ALIGN_CENTER := by rw [h1]; decide
      rw [if_neg n1, if_neg n2]
    · rw [fnCrop_checked ctx t _ hpos, cropPlan_wide ctx _ t cw h hcw]
      simp only [List.length_cons, List.length_nil, List.getD_cons_succ, List.getD_cons_zero,
        Value.IsNumber, hcode, hs, hl1, hl2, if_true]
      rcases ha with h1 | h1 | h1 <;> simp [h1, ALIGN_LEFT, ALIGN_CENTER, ALIGN_RIGHT]
  · intro h
    obtain ⟨ch, hch, hle⟩ :=
      Double.crop_tall_bound ctx.size.w ctx.size.h hW hH1 hH t ht hpos (hA ▸ h)
    have hs := ulongSub_of_le ctx.size.h ch hH64 hle
    have hl1 : toLong (ctx.size.h - ch) = ((ctx.size.h - ch : ℕ) : ℤ) :=
      toLong_of_lt _ (by omega)
    have hl2 : toLong ((ctx.size.h - ch) / 2) = (((ctx.size.h - ch) / 2 : ℕ) : ℤ) :=
      toLong_of_lt _ (by omega)
    refine ⟨ch, if a.Uint32Value = ALIGN_TOP then 0
      else if a.Uint32Value = ALIGN_MIDDLE then (((ctx.size.h - ch) / 2 : ℕ) : ℤ)
      else ((ctx.size.h - ch : ℕ) : ℤ), hch, hle, ?_, ?_, ?_, ?_⟩
    · intro h1; rw [if_pos h1]
    · intro h1
      have : ¬ a.Uint32Value = ALIGN_TOP := by rw [h1]; decide
      rw [if_neg this, if_pos h1]
    · intro h1
      have n1 : ¬ a.Uint32Value = ALIGN_TOP := by rw [h1]; decide
      have n2 : ¬ a.Uint32Value = ALIGN_MIDDLE := by rw [h1]; decide
      rw [if_neg n1, if_neg n2]
    · rw [fnCrop_checked ctx t _ hpos, cropPlan_tall ctx _ t ch h hch]
      simp only [List.length_cons, List.length_nil, List.getD_cons_succ, List.getD_cons_zero,
        Value.IsNumber, hcode, hs, hl1, hl2, if_true]
      rcases ha with h1 | h1 | h1 <;>
        simp [h1, ALIGN_LEFT, ALIGN_CENTER, ALIGN_RIGHT, ALIGN_TOP, ALIGN_MIDDLE, ALIGN_BOTTOM]

end NodeMagick

namespace NodeMagick

/-- Witness for C1: a 1000x500 image, `crop(1.0, CENTER)` gives `crop = {500, 500}`
and `x = 250`. -/
theorem fnCrop_geometry_witness :
    fnCrop (sessionOf 1000 500) [Value.ofNat 1, Value.ofNat ALIGN_CENTER] =
      Completion.value true
        { sessionOf 1000 500 with
          cropped := true
          crop := { w := 500, h := 500, aspect := Double.ofULong 1 }
          x := 250 } := by
  obtain ⟨cw, x, h1, -, -, h4, -, h6⟩ :=
    (fnCrop_geometry (sessionOf 1000 500) (by decide) (Double.ofULong 1)
      (Double.ofULong ALIGN_CENTER) (by decide) (by decide) (by decide)).1 (by decide)
  have e1 : Double.toULong (Double.mul (Double.ofULong (sessionOf 1000 500).size.h)
      (Double.ofULong 1)) = some 500 := by decide
  rw [e1] at h1
  cases h1
  have e2 : x = 250 := h4 (by decide)
  subst e2
  exact h6

/-- C2 (the code at the failing input): on a 1000x500 image `crop(4.0, BOTTOM)`
leaves `y = 250`; the following `crop(1.0, LEFT)` plans a 500x500 crop at `x = 0`
and keeps the stale `y = 250`, so `y + crop.h = 750` exceeds the natural height 500. -/
theorem fnCrop_stale_offset :
    (((fnCrop (sessionOf 1000 500) [Value.ofNat 4, Value.ofNat ALIGN_BOTTOM]).ctx?.bind
        (fun c => (fnCrop c [Value.ofNat 1, Value.ofNat ALIGN_LEFT]).ctx?)).map
      (fun c => (c.cropped, c.x, c.y, c.crop.w, c.crop.h, c.size.w, c.size.h))) =
      some (true, (0 : ℤ), (250 : ℤ), 500, 500, 1000, 500) := by
  rfl

/-- The conversions of `fnCrop` are in range, on loaded and on unloaded sessions. -/
theorem crop_bounds (ctx : NodeMagick) (hs : Loaded ctx ∨ Unloaded ctx) (t : Double)
    (ht : Double.WF t) (hpos : Double.lt Double.zero t = true) :
    (Double.lt t ctx.size.aspect = true →
      ∃ cw, Double.toULong (Double.mul (Double.ofULong ctx.size.h) t) = some cw ∧
        cw ≤ ctx.size.w) ∧
    (Double.lt ctx.size.aspect t = true →
      ∃ ch, Double.toULong (Double.div (Double.ofULong ctx.size.w) t) = some ch ∧
        ch ≤ ctx.size.h) := by
  rcases hs with ⟨-, -, hW, hH1, hH, hA⟩ | ⟨-, hW, hH, hA⟩
  · exact ⟨fun h => Double.crop_wide_bound _ _ hW hH1 hH t ht hpos (hA ▸ h),
      fun h => Double.crop_tall_bound _ _ hW hH1 hH t ht hpos (hA ▸ h)⟩
  · rw [hW, hH, hA]
    have h0 : Double.ofULong 0 = Double.fin false 0 (-1074) := rfl
    rcases Double.pos_cases t hpos with rfl | ⟨m, e, rfl, hm⟩
    · constructor
      · intro h; exact absurd h (by decide)
      · intro _; exact ⟨0, rfl, le_rfl⟩
    · have hm0 : m ≠ 0 := hm.ne.symm
      constructor
      · intro _
        refine ⟨0, ?_, le_rfl⟩
        rw [h0, Double.mul_fin]
        simp only [Double.roundPos, Nat.zero_mul, if_true, Double.toULong, Double.trunc,
          Double.signed, Nat.zero_div]
        rfl
      · intro _
        refine ⟨0, ?_, le_rfl⟩
        rw [h0, Double.div_fin 0 m _ _ hm0]
        simp only [Double.roundPos, Nat.zero_mul, if_true, Double.toULong, Double.trunc,
          Double.signed, Nat.zero_div]
        rfl

/-- The three ways `fnCrop` ends for a positive target aspect. -/
theorem fnCrop_cases (ctx : NodeMagick) (hs : Loaded ctx ∨ Unloaded ctx) (t : Double)
    (ht : Double.WF t) (hpos : Double.lt Double.zero t = true) (rest : List Value) :
    (Double.lt t ctx.size.aspect = true ∧ ∃ cw,
      Double.toULong (Double.mul (Double.ofULong ctx.size.h) t) = some cw ∧ cw ≤ ctx.size.w ∧
      fnCrop ctx (Value.number t :: rest) = Completion.value true
        { ctx with
          cropped := true
          crop := { w := cw, h := ctx.size.h,
                    aspect := Double.div (Double.ofULong cw) (Double.ofULong ctx.size.h) }
          x := if (Value.number t :: rest).length > 1 ∧
                ((Value.number t :: rest).getD 1 Value.undefined).IsNumber = true then
              (if ((Value.number t :: rest).getD 1 Value.undefined).Uint32Value = ALIGN_LEFT then 0
               else if ((Value.number t :: rest).getD 1 Value.undefined).Uint32Value =
                   ALIGN_CENTER then toLong (ulongSub ctx.size.w cw / 2)
               else if ((Value.number t :: rest).getD 1 Value.undefined).Uint32Value =
                   ALIGN_RIGHT then toLong (ulongSub ctx.size.w cw)
               else ctx.x)
            else ctx.x }) ∨
    (Double.lt ctx.size.aspect t = true ∧ ∃ ch,
      Double.toULong (Double.div (Double.ofULong ctx.size.w) t) = some ch ∧ ch ≤ ctx.size.h ∧
      fnCrop ctx (Value.number t :: rest) = Completion.value true
        { ctx with
          cropped := true
          crop := { w := ctx.size.w, h := ch,
                    aspect := Double.div (Double.ofULong ctx.size.w) (Double.ofULong ch) }
          y := if (Value.number t :: rest).length > 1 ∧
                ((Value.number t :: rest).getD 1 Value.undefined).IsNumber = true then
              (if ((Value.number t :: rest).getD 1 Value.undefined).Uint32Value = ALIGN_TOP then 0
               else if ((Value.number t :: rest).getD 1 Value.undefined).Uint32Value =
                   ALIGN_MIDDLE then toLong (ulongSub ctx.size.h ch / 2)
               else if ((Value.number t :: rest).getD 1 Value.undefined).Uint32Value =
                   ALIGN_BOTTOM then toLong (ulongSub ctx.size.h ch)
               else ctx.y)
            else ctx.y }) ∨
    (Double.lt t ctx.size.aspect = false ∧ Double.lt ctx.size.aspect t = false ∧
      fnCrop ctx (Value.number t :: rest) = Completion.value false { ctx with cropped := false }) := by
  obtain ⟨hw, htl⟩ := crop_bounds ctx hs t ht hpos
  rw [fnCrop_checked ctx t rest hpos]
  by_cases h1 : Double.lt t ctx.size.aspect = true
  · left
    obtain ⟨cw, hcw, hle⟩ := hw h1
    refine ⟨h1, cw, hcw, hle, ?_⟩
    rw [cropPlan_wide ctx _ t cw h1 hcw]
    rfl
  · by_cases h2 : Double.lt ctx.size.aspect t = true
    · right; left
      obtain ⟨ch, hch, hle⟩ := htl h2
      refine ⟨h2, ch, hch, hle, ?_⟩
      rw [cropPlan_tall ctx _ t ch h2 hch]
      rfl
    · right; right
      rw [Bool.not_eq_true] at h1 h2
      refine ⟨h1, h2, ?_⟩
      rw [cropPlan_same ctx _ t h1 h2]
      rfl

theorem size_aspect_ne_nan (ctx : NodeMagick) (hs : Loaded ctx ∨ Unloaded ctx) :
    ctx.size.aspect ≠ Double.nan := by
  rcases hs with ⟨-, -, hW, hH1, hH, hA⟩ | ⟨-, -, -, hA⟩
  · rw [hA]; exact Double.aspect_ne_nan _ _ hW hH1 hH
  · rw [hA]; decide

/-- C3: on a loaded session, for every target aspect `t > 0` (whatever further
arguments follow), `crop` returns normally, `cropped` is set afterwards exactly
when `t != size.aspect`, the returned boolean is `true` exactly when `cropped`
is set, and when `t == size.aspect` the call returns `false` with `cropped`
cleared. -/
theorem fnCrop_active_iff (ctx : NodeMagick) (hl : Loaded ctx) (t : Double)
    (ht : Double.WF t) (hpos : Double.lt Double.zero t = true) (rest : List Value) :
    ∃ r ctx1, fnCrop ctx (Value.number t :: rest) = Completion.value r ctx1 ∧
      (ctx1.cropped = true ↔ Double.ne t ctx.size.aspect = true) ∧
      (r = true ↔ ctx1.cropped = true) ∧
      (Double.eq t ctx.size.aspect = true → r = false ∧ ctx1.cropped = false) := by
  have hne := Double.ne_iff_lt_or_lt t ctx.size.aspect (Double.pos_ne_nan t hpos)
    (size_aspect_ne_nan ctx (Or.inl hl))
  rcases fnCrop_cases ctx (Or.inl hl) t ht hpos rest with
    ⟨h1, cw, -, -, hf⟩ | ⟨h2, ch, -, -, hf⟩ | ⟨h1, h2, hf⟩
  · refine ⟨true, _, hf, ?_, ?_, ?_⟩
    · simp [hne, h1]
    · simp
    · intro he
      have := hne.2 (Or.inl h1)
      simp [Double.ne, he] at this
  · refine ⟨true, _, hf, ?_, ?_, ?_⟩
    · simp [hne, h2]
    · simp
    · intro he
      have := hne.2 (Or.inr h2)
      simp [Double.ne, he] at this
  · refine ⟨false, _, hf, ?_, ?_, ?_⟩
    · simp [hne, h1, h2]
    · simp
    · intro _; exact ⟨rfl, rfl⟩

/-- Witness for C3: on a 1000x500 image (aspect 2.0), `crop(1.0)` is within the
scope of the theorem. -/
theorem fnCrop_active_iff_witness :
    ∃ r ctx1, fnCrop (sessionOf 1000 500) (Value.number (Double.ofULong 1) :: []) =
        Completion.value r ctx1 ∧
      (ctx1.cropped = true ↔
        Double.ne (Double.ofULong 1) (sessionOf 1000 500).size.aspect = true) ∧
      (r = true ↔ ctx1.cropped = true) ∧
      (Double.eq (Double.ofULong 1) (sessionOf 1000 500).size.aspect = true →
        r = false ∧ ctx1.cropped = false) :=
  fnCrop_active_iff (sessionOf 1000 500) (by decide) (Double.ofULong 1) (by decide)
    (by decide) []

/-- C4 (the code at the failing input): a negative target aspect is not rejected.
On a fresh object `crop(-1.0)` returns `true` and sets `cropped`; on a 1000x500
image `crop(-1/1024, LEFT)` returns `true`, sets `cropped` and plans a crop of
width 0. -/
theorem fnCrop_negative_aspect :
    fnCrop NodeMagick.new [Value.number (Double.fin true (2 ^ 52) (-52))] =
        Completion.value true
          { NodeMagick.new with
            cropped := true
            crop := { w := 0, h := 0, aspect := Double.nan } } ∧
      fnCrop (sessionOf 1000 500)
          [Value.number (Double.fin true (2 ^ 52) (-62)), Value.ofNat ALIGN_LEFT] =
        Completion.value true
          { sessionOf 1000 500 with
            cropped := true
            crop := { w := 0, h := 500, aspect := Double.zero } } := by
  constructor <;> rfl

/-- C5 (counterexample): on a 1000x500 image `crop(1.0, 7)`, with the undefined
alignment code 7, does not throw: it returns `true` and activates a 500x500 crop. -/
theorem fnCrop_align_unchecked :
    (Value.ofNat 7).Uint32Value = 7 ∧
      fnCrop (sessionOf 1000 500) [Value.ofNat 1, Value.ofNat 7] =
        Completion.value true
          { sessionOf 1000 500 with
            cropped := true
            crop := { w := 500, h := 500, aspect := Double.ofULong 1 } } := by
  constructor <;> rfl

/-- C5 (amended): on a loaded or never-loaded session, for a target aspect `t > 0`
and a numeric alignment argument whose `unsigned int` value (what `Uint32Value`
reads from it: the argument itself for an integer in `[0, 2^32)`) is not 1, 2
or 3, `crop` does not throw: it ends exactly as `crop(t)` without an alignment
does, returning normally with both offsets unchanged and `cropped` set exactly
when `t != size.aspect`. -/
theorem fnCrop_other_align (ctx : NodeMagick) (hs : Loaded ctx ∨ Unloaded ctx) (t a : Double)
    (ht : Double.WF t) (hpos : Double.lt Double.zero t = true)
    (ha : a.Uint32Value ≠ ALIGN_LEFT ∧ a.Uint32Value ≠ ALIGN_CENTER ∧
      a.Uint32Value ≠ ALIGN_RIGHT) :
    fnCrop ctx [Value.number t, Value.number a] = fnCrop ctx [Value.number t] ∧
      ∃ r ctx1, fnCrop ctx [Value.number t, Value.number a] = Completion.value r ctx1 ∧
        ctx1.x = ctx.x ∧ ctx1.y = ctx.y ∧
        (ctx1.cropped = true ↔ Double.ne t ctx.size.aspect = true) := by
  have hne := Double.ne_iff_lt_or_lt t ctx.size.aspect (Double.pos_ne_nan t hpos)
    (size_aspect_ne_nan ctx hs)
  have hcode : (Value.number a).Uint32Value = a.Uint32Value := rfl
  obtain ⟨a1, a2, a3⟩ := ha
  have b1 : ¬ a.Uint32Value = ALIGN_TOP := a1
  have b2 : ¬ a.Uint32Value = ALIGN_MIDDLE := a2
  have b3 : ¬ a.Uint32Value = ALIGN_BOTTOM := a3
  rcases fnCrop_cases ctx hs t ht hpos [Value.number a] with
    ⟨h1, cw, hcw, -, hf⟩ | ⟨h2, ch, hch, -, hf⟩ | ⟨h1, h2, hf⟩
  · rcases fnCrop_cases ctx hs t ht hpos [] with
      ⟨-, cw', hcw', -, hg⟩ | ⟨h2, -⟩ | ⟨h1', -⟩
    · rw [hcw] at hcw'
      cases hcw'
      simp only [List.getD_cons_succ, List.getD_cons_zero, hcode, if_neg a1, if_neg a2, if_neg a3,
        ite_self] at hf
      simp only [List.length_cons, List.length_nil] at hg
      refine ⟨by rw [hf, hg]; simp, _, _, hf, rfl, rfl, ?_⟩
      simp [hne, h1]
    · rw [Double.lt_asymm _ _ h2] at h1; cases h1
    · rw [h1'] at h1; cases h1
  · rcases fnCrop_cases ctx hs t ht hpos [] with
      ⟨h1, -⟩ | ⟨-, ch', hch', -, hg⟩ | ⟨-, h2', -⟩
    · rw [Double.lt_asymm _ _ h2] at h1; cases h1
    · rw [hch] at hch'
      cases hch'
      simp only [List.getD_cons_succ, List.getD_cons_zero, hcode, if_neg b1, if_neg b2, if_neg b3,
        ite_self] at hf
      simp only [List.length_cons, List.length_nil] at hg
      refine ⟨by rw [hf, hg]; simp, _, _, hf, rfl, rfl, ?_⟩
      simp [hne, h2]
    · rw [h2'] at h2; cases h2
  · rcases fnCrop_cases ctx hs t ht hpos [] with
      ⟨h1', -⟩ | ⟨h2', -⟩ | ⟨-, -, hg⟩
    · rw [h1] at h1'; cases h1'
    · rw [h2] at h2'; cases h2'
    · refine ⟨by rw [hf, hg], _, _, hf, rfl, rfl, ?_⟩
      simp [hne, h1, h2]

/-- Witness for C5 (amended): a 1000x500 image, `crop(1.0, 7)`. -/
theorem fnCrop_other_align_witness :
    fnCrop (sessionOf 1000 500) [Value.number (Double.ofULong 1), Value.number (Double.ofULong 7)] =
        fnCrop (sessionOf 1000 500) [Value.number (Double.ofULong 1)] ∧
      ∃ r ctx1, fnCrop (sessionOf 1000 500)
          [Value.number (Double.ofULong 1), Value.number (Double.ofULong 7)] =
          Completion.value r ctx1 ∧
        ctx1.x = (sessionOf 1000 500).x ∧ ctx1.y = (sessionOf 1000 500).y ∧
        (ctx1.cropped = true ↔
          Double.ne (Double.ofULong 1) (sessionOf 1000 500).size.aspect = true) :=
  fnCrop_other_align (sessionOf 1000 500) (Or.inl (by decide)) (Double.ofULong 1)
    (Double.ofULong 7) (by decide) (by decide) (by decide)

end NodeMagick

/-! ## Save and load -/

namespace NodeMagick

theorem runSteps_cons (lib : MagickLib) (hist : List WandCall) (c : WandCall)
    (cs : List WandCall) :
    runSteps lib hist (c :: cs) =
      if lib.status hist c then
        (c :: (runSteps lib (hist ++ [c]) cs).1, (runSteps lib (hist ++ [c]) cs).2)
      else ([c], false) := rfl

theorem runSteps_append (lib : MagickLib) (as bs : List WandCall) :
    ∀ hist, runSteps lib hist (as ++ bs) =
      if (runSteps lib hist as).2 then
        ((runSteps lib hist as).1 ++ (runSteps lib (hist ++ (runSteps lib hist as).1) bs).1,
          (runSteps lib (hist ++ (runSteps lib hist as).1) bs).2)
      else runSteps lib hist as := by
  induction as with
  | nil => intro hist; simp [runSteps]
  | cons c cs ih =>
    intro hist
    rw [List.cons_append, runSteps_cons, runSteps_cons]
    by_cases hs : lib.status hist c = true
    · simp only [hs, if_true]
      rw [ih (hist ++ [c])]
      by_cases h2 : (runSteps lib (hist ++ [c]) cs).2 = true
      · simp [h2, List.append_assoc]
      · simp [h2]
    · simp [hs]

/-- One guarded step of `saveImage` extends the run of the steps by one. -/
theorem saveStep_run (lib : MagickLib) (hist steps : List WandCall) (g : Bool) (c : WandCall) :
    saveStep lib g c ((runSteps lib hist steps).2, hist ++ (runSteps lib hist steps).1) =
      ((runSteps lib hist (steps ++ if g then [c] else [])).2,
        hist ++ (runSteps lib hist (steps ++ if g then [c] else [])).1) := by
  rw [runSteps_append]
  unfold saveStep
  cases g
  · by_cases h2 : (runSteps lib hist steps).2 = true <;> simp [h2, runSteps]
  · by_cases h2 : (runSteps lib hist steps).2 = true
    · by_cases h3 : lib.status (hist ++ (runSteps lib hist steps).1) c = true <;>
        simp [h2, h3, runSteps, List.append_assoc]
    · simp [h2]

/-- C6: on a loaded session, whatever the library answers, `saveImage` makes the
calls `CropImage(crop.w, crop.h, x, y)` (only if `cropped`),
`SampleImage(resize.w, resize.h)` (only if `resized`),
`SetImageCompressionQuality(quality)`, `SetFormat(format_to)` (only if set),
`ProfileImage`, `WriteImage(path)` in this order, up to and including the first
one that fails; no other field changes, and an error is returned exactly when a
step failed. -/
theorem saveImage_steps (lib : MagickLib) (ctx : NodeMagick) (path : String)
    (h : ctx.attached = true) :
    (saveImage lib ctx path).2 =
        { ctx with wand := ctx.wand ++ (runSteps lib ctx.wand (saveSteps ctx path)).1 } ∧
      ((saveImage lib ctx path).1.isSome = true ↔
        (runSteps lib ctx.wand (saveSteps ctx path)).2 = false) := by
  have h0 : (if ctx.cropped = true then
        (lib.status ctx.wand (WandCall.CropImage ctx.crop.w ctx.crop.h ctx.x ctx.y),
          ctx.wand ++ [WandCall.CropImage ctx.crop.w ctx.crop.h ctx.x ctx.y])
      else (true, ctx.wand)) =
      ((runSteps lib ctx.wand
          (if ctx.cropped then [WandCall.CropImage ctx.crop.w ctx.crop.h ctx.x ctx.y] else [])).2,
        ctx.wand ++ (runSteps lib ctx.wand
          (if ctx.cropped then [WandCall.CropImage ctx.crop.w ctx.crop.h ctx.x ctx.y]
            else [])).1) := by
    cases ctx.cropped
    · simp [runSteps]
    · by_cases h3 : lib.status ctx.wand
          (WandCall.CropImage ctx.crop.w ctx.crop.h ctx.x ctx.y) = true <;>
        simp [h3, runSteps]
  have hfmt : (if ctx.format_to.isSome then [WandCall.SetFormat (ctx.format_to.getD "")] else []) =
      (ctx.format_to.map WandCall.SetFormat).toList := by
    cases ctx.format_to <;> rfl
  have hL : ((((((if ctx.cropped then
        [WandCall.CropImage ctx.crop.w ctx.crop.h ctx.x ctx.y] else []) ++
      (if ctx.resized then [WandCall.SampleImage ctx.resize.w ctx.resize.h] else [])) ++
      (if true then [WandCall.SetImageCompressionQuality ctx.quality] else [])) ++
      (if ctx.format_to.isSome then [WandCall.SetFormat (ctx.format_to.getD "")] else [])) ++
      (if true then [WandCall.ProfileImage] else [])) ++
      (if true then [WandCall.WriteImage path] else [])) = saveSteps ctx path := by
    rw [hfmt]
    simp [saveSteps, List.append_assoc]
  unfold saveImage
  rw [if_pos h]
  dsimp only
  rw [h0, saveStep_run, saveStep_run, saveStep_run, saveStep_run, saveStep_run, hL]
  by_cases hr : (runSteps lib ctx.wand (saveSteps ctx path)).2 = true
  · simp [hr]
  · simp [hr]

/-- Witness for C6: the scenario of the specification.  A 1000x500 image after
`crop(1.0, CENTER)` and `scale(50)`, quality 100 and no format: the library
receives crop(500,500,250,0), resample(250,250), setQuality(100), the profile
strip and the write, and no error is returned. -/
theorem saveImage_steps_witness :
    (saveImage (goodLib 1000 500) plannedSession "out.jpg").2.wand =
        [WandCall.ReadImage "in.jpg", WandCall.CropImage 500 500 250 0,
          WandCall.SampleImage 250 250, WandCall.SetImageCompressionQuality 100,
          WandCall.ProfileImage, WandCall.WriteImage "out.jpg"] ∧
      (saveImage (goodLib 1000 500) plannedSession "out.jpg").1.isSome = false := by
  have h := saveImage_steps (goodLib 1000 500) plannedSession "out.jpg" (by decide)
  constructor
  · rw [h.1]; rfl
  · have h2 : (runSteps (goodLib 1000 500) plannedSession.wand
        (saveSteps plannedSession "out.jpg")).2 = true := by rfl
    cases hv : (saveImage (goodLib 1000 500) plannedSession "out.jpg").1.isSome
    · rfl
    · rw [h.2.1 hv] at h2; cases h2

/-- C7 (counterexample): reloading the scenario session (crop 500x500 active,
resize 250x250 active) with a 1000x500 image succeeds and overwrites the crop
and resize dimensions with the natural size. -/
theorem loadImage_resets_dims :
    (loadImage (goodLib 1000 500) plannedSession "in.jpg").1 = none ∧
      (plannedSession.crop.w, plannedSession.crop.h) = (500, 500) ∧
      (plannedSession.resize.w, plannedSession.resize.h) = (250, 250) ∧
      ((loadImage (goodLib 1000 500) plannedSession "in.jpg").2.crop.w,
        (loadImage (goodLib 1000 500) plannedSession "in.jpg").2.crop.h) = (1000, 500) ∧
      ((loadImage (goodLib 1000 500) plannedSession "in.jpg").2.resize.w,
        (loadImage (goodLib 1000 500) plannedSession "in.jpg").2.resize.h) = (1000, 500) := by
  refine ⟨rfl, rfl, rfl, rfl, rfl⟩

/-- C7 (amended): a successful `loadImage` (first load or reload) returns no error
and keeps `cropped`, `resized`, `x`, `y`, `quality` and `format_to`; it sets
`attached`, `src`, `format` and the natural size, and it overwrites `crop` with
the natural size and aspect and `resize.w`, `resize.h` with the natural width
and height. -/
theorem loadImage_frame (lib : MagickLib) (ctx : NodeMagick) (path : String)
    (hok : lib.status (if ctx.attached then [] else ctx.wand) (WandCall.ReadImage path) = true) :
    (loadImage lib ctx path).1 = none ∧
      (loadImage lib ctx path).2.cropped = ctx.cropped ∧
      (loadImage lib ctx path).2.resized = ctx.resized ∧
      (loadImage lib ctx path).2.x = ctx.x ∧
      (loadImage lib ctx path).2.y = ctx.y ∧
      (loadImage lib ctx path).2.quality = ctx.quality ∧
      (loadImage lib ctx path).2.format_to = ctx.format_to ∧
      (loadImage lib ctx path).2.attached = true ∧
      (loadImage lib ctx path).2.src = some path ∧
      (loadImage lib ctx path).2.format = some (lib.imageFormat
        ((if ctx.attached then [] else ctx.wand) ++ [WandCall.ReadImage path])) ∧
      (loadImage lib ctx path).2.size.w = lib.imageWidth
        ((if ctx.attached then [] else ctx.wand) ++ [WandCall.ReadImage path]) % 2 ^ 64 ∧
      (loadImage lib ctx path).2.size.h = lib.imageHeight
        ((if ctx.attached then [] else ctx.wand) ++ [WandCall.ReadImage path]) % 2 ^ 64 ∧
      (loadImage lib ctx path).2.size.aspect =
        Double.div (Double.ofULong (loadImage lib ctx path).2.size.w)
          (Double.ofULong (loadImage lib ctx path).2.size.h) ∧
      (loadImage lib ctx path).2.crop = (loadImage lib ctx path).2.size ∧
      (loadImage lib ctx path).2.resize.w = (loadImage lib ctx path).2.size.w ∧
      (loadImage lib ctx path).2.resize.h = (loadImage lib ctx path).2.size.h := by
  unfold loadImage
  cases ha : ctx.attached <;> simp_all

/-- Witness for C7 (amended): reloading the scenario session with a library in
which every call succeeds. -/
theorem loadImage_frame_witness :
    (loadImage (goodLib 1000 500) plannedSession "in.jpg").2.cropped = plannedSession.cropped ∧
      (loadImage (goodLib 1000 500) plannedSession "in.jpg").2.resized =
        plannedSession.resized ∧
      (loadImage (goodLib 1000 500) plannedSession "in.jpg").2.crop =
        (loadImage (goodLib 1000 500) plannedSession "in.jpg").2.size :=
  have h := loadImage_frame (goodLib 1000 500) plannedSession "in.jpg" rfl
  ⟨h.2.1, h.2.2.1, h.2.2.2.2.2.2.2.2.2.2.2.2.2.1⟩

end NodeMagick

/-! ## Scale and resize -/

namespace NodeMagick

/-- C8 (the code at the failing input): on a 29x29 image with no crop active,
`scale(100)` stores `resize = {28, 28}`: `29.0 / 100 * 100` is
`28.999999999999996` in binary64 and the conversion truncates it. -/
theorem fnScale_full_percent_shrinks :
    ((sessionOf 29 29).cropped, (sessionOf 29 29).size.w, (sessionOf 29 29).size.h) =
        (false, 29, 29) ∧
      fnScale (sessionOf 29 29) [Value.ofNat 100] =
        Completion.value ()
          { sessionOf 29 29 with
            scale := Double.ofULong 100
            resize := { w := 28, h := 28, aspect := Double.zero }
            resized := true } := by
  constructor <;> rfl

/-- C9 (the code at the failing input): on a 116x58 image `crop(1.0, CENTER)` plans
a 58x58 crop; `scale(50)` then stores `resize = {28, 28}`, whereas
`trunc(58 * 50 / 100)` is 29, in exact arithmetic and in binary64 alike. -/
theorem fnScale_half_of_crop :
    (((fnCrop (sessionOf 116 58) [Value.ofNat 1, Value.ofNat ALIGN_CENTER]).ctx?.bind
        (fun c => (fnScale c [Value.ofNat 50]).ctx?)).map
      (fun c => (c.cropped, c.crop.w, c.crop.h, c.resized, c.resize.w, c.resize.h))) =
        some (true, 58, 58, true, 28, 28) ∧
      Double.toULong (Double.div (Double.mul (Double.ofULong 58) (Double.ofULong 50))
        (Double.ofULong 100)) = some 29 ∧
      58 * 50 / 100 = 29 := by
  refine ⟨rfl, rfl, rfl⟩

/-- C10 (the code at the failing input): `resize(-1, 10)` is not rejected.
`Uint32Value` maps `-1` to 4294967295, which passes the `< 1` test, and the call
stores `resize = {4294967295, 10}` and sets `resized`. -/
theorem fnResize_negative_width :
    Value.Uint32Value (Value.number (Double.fin true (2 ^ 52) (-52))) = 4294967295 ∧
      fnResize (sessionOf 1000 500)
          [Value.number (Double.fin true (2 ^ 52) (-52)), Value.ofNat 10] =
        Completion.value ()
          { sessionOf 1000 500 with
            resize := { w := 4294967295, h := 10, aspect := Double.zero }
            resized := true } := by
  constructor <;> rfl

end NodeMagick

/-! ## Resize to explicit or aspect-preserving dimensions -/

namespace Double

theorem Uint32Value_lt (a : Double) : a.Uint32Value < 2 ^ 32 := by
  unfold Uint32Value
  cases trunc a with
  | none => norm_num
  | some z =>
    have h1 := Int.emod_lt_of_pos z (by norm_num : (0 : ℤ) < 2 ^ 32)
    have h2 := Int.emod_nonneg z (by norm_num : (2 : ℤ) ^ 32 ≠ 0)
    simp only
    omega

/-- An integer below `2^32`, passed as a number, is its own `unsigned int` value. -/
theorem Uint32Value_ofULong (n : ℕ) (h : n < 2 ^ 32) : (ofULong n).Uint32Value = n := by
  obtain ⟨m, e, h1, h2⟩ := ofULong_exact n (le_trans h.le (by norm_num))
  have h3 : m * 2 ^ e.toNat = n * 2 ^ (-e).toNat := by
    rw [two_zpow_split e] at h2
    have hpos : ((2 : ℚ) ^ (-e).toNat) ≠ 0 := by positivity
    field_simp at h2
    exact_mod_cast h2
  have h4 : m * 2 ^ e.toNat / 2 ^ (-e).toNat = n := by
    rw [h3]; exact Nat.mul_div_cancel _ (by positivity)
  rw [h1]
  simp only [Uint32Value, trunc, signed, Bool.false_eq_true, if_false, h4]
  omega

/-- The comparison `w != width` of `fnResize` and its siblings decides whether the
base dimension differs from the requested one. -/
theorem ne_ofULong (a width : ℕ) (hw : width < 2 ^ 32) :
    ne (ofULong a) (ofULong width) = true ↔ a ≠ width := by
  obtain ⟨mw, ew, hwd, hwv⟩ := ofULong_exact width (by omega)
  rw [hwd]
  unfold ne
  rw [Bool.not_eq_true', Bool.eq_false_iff, Ne]
  rcases le_or_lt a (2 ^ 53) with h | h
  · obtain ⟨ma, ea, had, hav⟩ := ofULong_exact a h
    rw [had, eq_fin, val_pos, val_pos, hav, hwv]
    exact not_congr Nat.cast_inj
  · have hne : a ≠ width := by omega
    have hF : ((2 ^ 53 : ℕ) : ℚ) ≤ ((a : ℕ) : ℚ) / ((1 : ℕ) : ℚ) := by
      rw [Nat.cast_one, div_one]
      exact_mod_cast h.le
    have hwq : ((width : ℕ) : ℚ) < ((2 ^ 53 : ℕ) : ℚ) := by
      have : width < 2 ^ 53 := by omega
      exact_mod_cast this
    refine iff_of_true ?_ hne
    rcases roundPos_ge false a 1 Nat.one_pos _ (Rep_nat (2 ^ 53) le_rfl) hF with h1 | ⟨m, e, h1, h2⟩
    · unfold ofULong
      rw [h1]
      simp [eq]
    · unfold ofULong
      rw [h1, eq_fin, val_pos, val_pos, hwv]
      intro h3
      rw [h3] at h2
      exact absurd (lt_of_le_of_lt h2 hwq) (lt_irrefl _)

end Double

namespace NodeMagick

/-- C16 (counterexample): a width of `2^32` or more does not fit the `unsigned int`
the code reads it into. On a 1000x500 image `resize(4294967296, 10)` throws the
`TypeError` although the width is at least 1 (its `unsigned int` value is 0), and
`resize(4294967301, 10)` stores the width 5, not 4294967301. -/
theorem fnResize_wraps_width :
    fnResize (sessionOf 1000 500) [Value.ofNat 4294967296, Value.ofNat 10] =
        Completion.typeError "resize( width:Number > 0, height:Number > 0 )"
          (sessionOf 1000 500) ∧
      fnResize (sessionOf 1000 500) [Value.ofNat 4294967301, Value.ofNat 10] =
        Completion.value ()
          { sessionOf 1000 500 with
            resize := { w := 5, h := 10, aspect := Double.zero }, resized := true } := by
  constructor <;> rfl

/-- C16 (amended): for every session and every pair of numeric arguments whose
`unsigned int` values `width` and `height` (what `Uint32Value` reads from them: the
argument itself for an integer in `[0, 2^32)`) are at least 1, `resize` stores
`resize = {width, height}` and sets `resized` when the pair differs from the base
dimensions (the crop size if `cropped`, the natural size otherwise), and leaves
the whole session as it was when the pair equals the base dimensions. -/
theorem fnResize_spec (ctx : NodeMagick) (a b : Double) (width height : ℕ)
    (ha : a.Uint32Value = width) (hb : b.Uint32Value = height)
    (hw : 1 ≤ width) (hh : 1 ≤ height) :
    ((width ≠ (if ctx.cropped then ctx.crop.w else ctx.size.w) ∨
        height ≠ (if ctx.cropped then ctx.crop.h else ctx.size.h)) →
      fnResize ctx [Value.number a, Value.number b] =
        Completion.value ()
          { ctx with resize := { ctx.resize with w := width, h := height }, resized := true }) ∧
    ((width = (if ctx.cropped then ctx.crop.w else ctx.size.w) ∧
        height = (if ctx.cropped then ctx.crop.h else ctx.size.h)) →
      fnResize ctx [Value.number a, Value.number b] = Completion.value () ctx) := by
  have hw32 : width < 2 ^ 32 := ha ▸ Double.Uint32Value_lt a
  have hh32 : height < 2 ^ 32 := hb ▸ Double.Uint32Value_lt b
  have e1 : baseW ctx = Double.ofULong (if ctx.cropped then ctx.crop.w else ctx.size.w) := by
    unfold baseW; split_ifs <;> rfl
  have e2 : baseH ctx = Double.ofULong (if ctx.cropped then ctx.crop.h else ctx.size.h) := by
    unfold baseH; split_ifs <;> rfl
  have n1 := Double.ne_ofULong (if ctx.cropped then ctx.crop.w else ctx.size.w) width hw32
  have n2 := Double.ne_ofULong (if ctx.cropped then ctx.crop.h else ctx.size.h) height hh32
  have hg : ¬ ([Value.number a, Value.number b].length < 2 ∨
      (([Value.number a, Value.number b].getD 0 Value.undefined).IsNumber = false ∨
        ([Value.number a, Value.number b].getD 0 Value.undefined).Uint32Value < 1 ∨
        ([Value.number a, Value.number b].getD 1 Value.undefined).IsNumber = false ∨
        ([Value.number a, Value.number b].getD 1 Value.undefined).Uint32Value < 1)) := by
    simp [Value.IsNumber, Value.Uint32Value, Value.NumberValue, ha, hb]
    omega
  constructor
  · intro hd
    have hc : (Double.ne (baseW ctx) (Double.ofULong width) ||
        Double.ne (baseH ctx) (Double.ofULong height)) = true := by
      rw [Bool.or_eq_true, e1, e2, n1, n2]
      rcases hd with h | h
      · exact Or.inl (Ne.symm h)
      · exact Or.inr (Ne.symm h)
    unfold fnResize
    simp only [hg, if_false]
    simp only [List.getD_cons_zero, List.getD_cons_succ, Value.Uint32Value, Value.NumberValue,
      ha, hb, hc, if_true]
  · rintro ⟨h1, h2⟩
    have hc : (Double.ne (baseW ctx) (Double.ofULong width) ||
        Double.ne (baseH ctx) (Double.ofULong height)) = false := by
      rw [Bool.or_eq_false_iff, e1, e2]
      constructor
      · rw [Bool.eq_false_iff, Ne, n1]; exact fun h => h h1.symm
      · rw [Bool.eq_false_iff, Ne, n2]; exact fun h => h h2.symm
    unfold fnResize
    simp only [hg, if_false]
    simp only [List.getD_cons_zero, List.getD_cons_succ, Value.Uint32Value, Value.NumberValue,
      ha, hb, hc]
    rfl

/-- Witness for C16 (amended): on a 1000x500 image `resize(200, 100)` stores `{200, 100}`. -/
theorem fnResize_spec_witness :
    fnResize (sessionOf 1000 500) [Value.ofNat 200, Value.ofNat 100] =
      Completion.value ()
        { sessionOf 1000 500 with
          resize := { (sessionOf 1000 500).resize with w := 200, h := 100 }, resized := true } :=
  (fnResize_spec (sessionOf 1000 500) (Double.ofULong 200) (Double.ofULong 100) 200 100
    (by decide) (by decide) (by decide) (by decide)).1 (Or.inl (by decide))

end NodeMagick

namespace NodeMagick

/-- The method `fnResizeByWidth` on one numeric argument whose `unsigned int` value
is `width >= 1`. -/
theorem fnResizeByWidth_run (ctx : NodeMagick) (a : Double) (width : ℕ)
    (ha : a.Uint32Value = width) (hw : 1 ≤ width) :
    fnResizeByWidth ctx [Value.number a] =
      if (if ctx.cropped then ctx.crop.w else ctx.size.w) = width then Completion.value () ctx
      else
        match Double.toULong (Double.div (Double.ofULong width) (baseAspect ctx)) with
        | some rh =>
          Completion.value ()
            { ctx with resize := { ctx.resize with w := width, h := rh }, resized := true }
        | none => Completion.undefinedBehavior := by
  have hw32 : width < 2 ^ 32 := ha ▸ Double.Uint32Value_lt a
  have e1 : baseW ctx = Double.ofULong (if ctx.cropped then ctx.crop.w else ctx.size.w) := by
    unfold baseW; split_ifs <;> rfl
  have n1 := Double.ne_ofULong (if ctx.cropped then ctx.crop.w else ctx.size.w) width hw32
  have hg : ¬ ([Value.number a].length < 1 ∨
      (([Value.number a].getD 0 Value.undefined).IsNumber = false ∨
        ([Value.number a].getD 0 Value.undefined).Uint32Value < 1)) := by
    simp [Value.IsNumber, Value.Uint32Value, Value.NumberValue, ha]
    omega
  unfold fnResizeByWidth
  simp only [hg, if_false]
  simp only [List.getD_cons_zero, Value.Uint32Value, Value.NumberValue, ha, e1]
  by_cases h : (if ctx.cropped then ctx.crop.w else ctx.size.w) = width
  · have hc : Double.ne (Double.ofULong (if ctx.cropped then ctx.crop.w else ctx.size.w))
        (Double.ofULong width) = false := by
      rw [Bool.eq_false_iff, Ne, n1]; exact fun h2 => h2 h
    rw [if_pos h, hc]
    rfl
  · rw [if_neg h, n1.2 h]
    rfl

/-- The method `fnResizeByHeight` on one numeric argument whose `unsigned int`
value is `height >= 1`. -/
theorem fnResizeByHeight_run (ctx : NodeMagick) (a : Double) (height : ℕ)
    (ha : a.Uint32Value = height) (hh : 1 ≤ height) :
    fnResizeByHeight ctx [Value.number a] =
      if (if ctx.cropped then ctx.crop.h else ctx.size.h) = height then Completion.value () ctx
      else
        match Double.toULong (Double.mul (Double.ofULong height) (baseAspect ctx)) with
        | some rw =>
          Completion.value ()
            { ctx with resize := { ctx.resize with w := rw, h := height }, resized := true }
        | none => Completion.undefinedBehavior := by
  have hh32 : height < 2 ^ 32 := ha ▸ Double.Uint32Value_lt a
  have e1 : baseH ctx = Double.ofULong (if ctx.cropped then ctx.crop.h else ctx.size.h) := by
    unfold baseH; split_ifs <;> rfl
  have n1 := Double.ne_ofULong (if ctx.cropped then ctx.crop.h else ctx.size.h) height hh32
  have hg : ¬ ([Value.number a].length < 1 ∨
      (([Value.number a].getD 0 Value.undefined).IsNumber = false ∨
        ([Value.number a].getD 0 Value.undefined).Uint32Value < 1)) := by
    simp [Value.IsNumber, Value.Uint32Value, Value.NumberValue, ha]
    omega
  unfold fnResizeByHeight
  simp only [hg, if_false]
  simp only [List.getD_cons_zero, Value.Uint32Value, Value.NumberValue, ha, e1]
  by_cases h : (if ctx.cropped then ctx.crop.h else ctx.size.h) = height
  · have hc : Double.ne (Double.ofULong (if ctx.cropped then ctx.crop.h else ctx.size.h))
        (Double.ofULong height) = false := by
      rw [Bool.eq_false_iff, Ne, n1]; exact fun h2 => h2 h
    rw [if_pos h, hc]
    rfl
  · rw [if_neg h, n1.2 h]
    rfl

/-- C17 (counterexample): on a 1000x500 image `crop(1/1024, LEFT)` plans a crop of
width 0, so `crop.aspect` is 0; `resizeByWidth(10)` then divides by it and the
conversion of the infinite quotient to `unsigned long` is undefined: no
`resize.h = trunc(w / baseAspect)` is stored. -/
theorem fnResizeByWidth_zero_aspect :
    ((fnCrop (sessionOf 1000 500)
        [Value.number (Double.fin false (2 ^ 52) (-62)), Value.ofNat ALIGN_LEFT]).ctx?.map
      (fun c => (c.cropped, c.crop.w, c.crop.h, c.crop.aspect,
        fnResizeByWidth c [Value.ofNat 10]))) =
      some (true, 0, 500, Double.zero, Completion.undefinedBehavior) := by
  rfl

/-- C17 (amended): for every session and every number whose `unsigned int` value
`n` is at least 1.  If `n` differs from the base width and `n / baseAspect`
converts to `unsigned long`, `resizeByWidth` stores `resize.w = n`,
`resize.h = trunc(n / baseAspect)` and sets `resized`; if `n` differs from the
base height and `n * baseAspect` converts to `unsigned long`, `resizeByHeight`
stores `resize.h = n`, `resize.w = trunc(n * baseAspect)` and sets `resized`;
when `n` equals the base value the session is left as it was.  The base values
are the crop's if `cropped` and the natural ones otherwise. -/
theorem fnResizeBy_spec (ctx : NodeMagick) (a : Double) (n : ℕ)
    (ha : a.Uint32Value = n) (hn : 1 ≤ n) :
    ((if ctx.cropped then ctx.crop.w else ctx.size.w) ≠ n →
      ∀ rh, Double.toULong (Double.div (Double.ofULong n)
          (if ctx.cropped then ctx.crop.aspect else ctx.size.aspect)) = some rh →
        fnResizeByWidth ctx [Value.number a] =
          Completion.value ()
            { ctx with resize := { ctx.resize with w := n, h := rh }, resized := true }) ∧
    ((if ctx.cropped then ctx.crop.w else ctx.size.w) = n →
      fnResizeByWidth ctx [Value.number a] = Completion.value () ctx) ∧
    ((if ctx.cropped then ctx.crop.h else ctx.size.h) ≠ n →
      ∀ rw, Double.toULong (Double.mul (Double.ofULong n)
          (if ctx.cropped then ctx.crop.aspect else ctx.size.aspect)) = some rw →
        fnResizeByHeight ctx [Value.number a] =
          Completion.value ()
            { ctx with resize := { ctx.resize with w := rw, h := n }, resized := true }) ∧
    ((if ctx.cropped then ctx.crop.h else ctx.size.h) = n →
      fnResizeByHeight ctx [Value.number a] = Completion.value () ctx) := by
  have hA : baseAspect ctx = (if ctx.cropped then ctx.crop.aspect else ctx.size.aspect) := rfl
  refine ⟨?_, ?_, ?_, ?_⟩
  · intro h rh hq
    rw [fnResizeByWidth_run ctx a n ha hn, if_neg h, hA, hq]
  · intro h
    rw [fnResizeByWidth_run ctx a n ha hn, if_pos h]
  · intro h rw hq
    rw [fnResizeByHeight_run ctx a n ha hn, if_neg h, hA, hq]
  · intro h
    rw [fnResizeByHeight_run ctx a n ha hn, if_pos h]

/-- Witness for C17 (amended): on a 1000x500 image `resizeByWidth(100)` stores
`resize = {100, 50}`. -/
theorem fnResizeBy_spec_witness :
    fnResizeByWidth (sessionOf 1000 500) [Value.number (Double.ofULong 100)] =
      Completion.value ()
        { sessionOf 1000 500 with
          resize := { (sessionOf 1000 500).resize with w := 100, h := 50 }, resized := true } :=
  (fnResizeBy_spec (sessionOf 1000 500) (Double.ofULong 100) 100 (by decide) (by decide)).1
    (by decide) 50 (by decide)

end NodeMagick

namespace Double

theorem roundPos_cases (s : Bool) (n d : ℕ) :
    roundPos s n d = inf s ∨ ∃ m e, roundPos s n d = fin s m e := by
  unfold roundPos
  by_cases hn : n = 0
  · exact Or.inr ⟨0, -1074, by simp [hn]⟩
  · simp only [hn, if_false]
    by_cases hbad : 971 < (if roundNearestEven (n * 2 ^ (-(ulpExp n d)).toNat)
        (d * 2 ^ (ulpExp n d).toNat) = 2 ^ 53 then ulpExp n d + 1 else ulpExp n d)
    · left; rw [if_pos hbad]
    · right; rw [if_neg hbad]; exact ⟨_, _, rfl⟩

theorem trunc_le_val (m : ℕ) (e : ℤ) :
    ((m * 2 ^ e.toNat / 2 ^ (-e).toNat : ℕ) : ℚ) ≤ (m : ℚ) * (2 : ℚ) ^ e := by
  rw [two_zpow_split e]
  calc ((m * 2 ^ e.toNat / 2 ^ (-e).toNat : ℕ) : ℚ)
      ≤ ((m * 2 ^ e.toNat : ℕ) : ℚ) / ((2 ^ (-e).toNat : ℕ) : ℚ) := Nat.cast_div_le
    _ = (m : ℚ) * ((2 : ℚ) ^ e.toNat / (2 : ℚ) ^ (-e).toNat) := by push_cast; ring

theorem toULong_fin_false (m : ℕ) (e : ℤ) (h : ℕ) (hq : toULong (fin false m e) = some h) :
    h = m * 2 ^ e.toNat / 2 ^ (-e).toNat := by
  simp only [toULong, trunc, signed, Bool.false_eq_true, if_false] at hq
  split_ifs at hq with hc
  simp only [Option.some.injEq] at hq
  omega

theorem toULong_fin_true (m : ℕ) (e : ℤ) (h : ℕ) (hq : toULong (fin true m e) = some h) :
    h = 0 := by
  simp only [toULong, trunc, signed, if_true] at hq
  generalize m * 2 ^ e.toNat / 2 ^ (-e).toNat = k at hq
  split_ifs at hq with hc
  simp only [Option.some.injEq] at hq
  omega

/-- If `trunc(w / A)` is a defined `h >= 1` then `trunc(h * A)` is defined as well
and at most `2 * w`: the quotient was at least `h / 2`, as rounding does not step
over `h / 2`. -/
theorem roundtrip_bound (w h : ℕ) (A : Double) (hw1 : 1 ≤ w) (hw : w < 2 ^ 32)
    (hh1 : 1 ≤ h) (hh : h < 2 ^ 32)
    (hq : toULong (div (ofULong w) A) = some h) :
    ∃ w2, toULong (mul (ofULong h) A) = some w2 ∧ w2 ≤ 2 * w := by
  obtain ⟨mw, ew, hwd, hwv⟩ := ofULong_exact w (by omega)
  obtain ⟨mh, eh, hhd, hhv⟩ := ofULong_exact h (by omega)
  have hwq : (1 : ℚ) ≤ (w : ℚ) := by exact_mod_cast hw1
  have hhq : (1 : ℚ) ≤ (h : ℚ) := by exact_mod_cast hh1
  have hmw : mw ≠ 0 := by
    rintro rfl
    simp at hwv
    linarith
  rw [hwd] at hq
  rw [hhd]
  cases A with
  | nan => simp [div, toULong, trunc] at hq
  | inf s =>
    exfalso
    simp only [div, toULong, trunc, signed, Nat.zero_mul, Nat.zero_div] at hq
    split_ifs at hq <;> simp at hq <;> omega
  | fin s mA eA =>
    by_cases hmA : mA = 0
    · subst hmA
      simp [div, hmw, toULong, trunc] at hq
    · cases s with
      | true =>
        exfalso
        have hd : div (fin false mw ew) (fin true mA eA) =
            roundPos true (mw * 2 ^ (ew - eA).toNat) (mA * 2 ^ (eA - ew).toNat) := by
          simp [div, hmA]
        rw [hd] at hq
        rcases roundPos_cases true (mw * 2 ^ (ew - eA).toNat) (mA * 2 ^ (eA - ew).toNat) with
          h1 | ⟨m, e, h1⟩
        · rw [h1] at hq; simp [toULong, trunc] at hq
        · rw [h1] at hq
          have := toULong_fin_true m e h hq
          omega
      | false =>
        have hAq : (0 : ℚ) < (mA : ℚ) * (2 : ℚ) ^ eA := by
          have : (0 : ℚ) < (mA : ℚ) := by exact_mod_cast Nat.pos_of_ne_zero hmA
          positivity
        rw [div_fin mw mA ew eA hmA] at hq
        have hD : 0 < mA * 2 ^ (eA - ew).toNat := by
          have := Nat.pos_of_ne_zero hmA
          positivity
        have hval := div_fin_val mw mA ew eA hmA
        rw [hwv] at hval
        rcases roundPos_cases false (mw * 2 ^ (ew - eA).toNat) (mA * 2 ^ (eA - ew).toNat) with
          h1 | ⟨m, e, h1⟩
        · rw [h1] at hq; simp [toULong, trunc] at hq
        · rw [h1] at hq
          have hk := toULong_fin_false m e h hq
          have hle : (h : ℚ) ≤ (m : ℚ) * (2 : ℚ) ^ e := by
            rw [hk]; exact trunc_le_val m e
          have hhalf : (h : ℚ) / 2 ≤ (w : ℚ) / ((mA : ℚ) * (2 : ℚ) ^ eA) := by
            by_contra hc
            rw [not_le, ← hval] at hc
            have hRep : Rep ((h : ℚ) / 2) :=
              ⟨h, -1, by omega, by norm_num, by norm_num, by
                rw [zpow_neg, zpow_one]; ring⟩
            obtain ⟨m', e', h2, h3⟩ := roundPos_le false _ _ hD _ hRep hc.le
            rw [h1] at h2
            cases h2
            linarith
          have hprod : ((mh * mA * 2 ^ (eh + eA).toNat : ℕ) : ℚ) /
              ((2 ^ (-(eh + eA)).toNat : ℕ) : ℚ) ≤ ((2 * w : ℕ) : ℚ) := by
            rw [mul_fin_val, hhv]
            rw [le_div_iff₀ hAq] at hhalf
            push_cast
            linarith
          rw [mul_fin]
          obtain ⟨m2, e2, hP, hPv⟩ :=
            roundPos_le false _ _ (by positivity) _ (Rep_nat (2 * w) (by omega)) hprod
          rw [hP]
          exact toULong_le m2 e2 (2 * w) (by omega) hPv

end Double

namespace NodeMagick

/-- C13 (counterexample): on a 1000x500 image `resizeByWidth(3)` produces
`resize = {3, 1}`, and `resizeByHeight(1)` on the same base then changes it to
`{2, 1}`. -/
theorem resizeBy_not_fixed :
    ((fnResizeByWidth (sessionOf 1000 500) [Value.ofNat 3]).ctx?.map
        (fun c => (c.resize.w, c.resize.h))) = some (3, 1) ∧
      (((fnResizeByWidth (sessionOf 1000 500) [Value.ofNat 3]).ctx?.bind
          (fun c => (fnResizeByHeight c [Value.ofNat 1]).ctx?)).map
        (fun c => (c.resize.w, c.resize.h, c.cropped, c.size.w, c.size.h))) =
        some (2, 1, false, 1000, 500) := by
  constructor <;> rfl

/-- C13 (amended): for every session, when `resizeByWidth(w)`, with `w >= 1` the
`unsigned int` value of its argument, has produced `resize = {w, h1}`
(`h1 = trunc(w / baseAspect)`, the base width differing from `w`) and
`1 <= h1 < 2^32`, so that `h1` is the `unsigned int` value of the argument it is
passed back in, the call `resizeByHeight(h1)` on that session returns normally and
keeps `resize.h = h1` and `resized`; `resize.w` stays `w` when `h1` equals the
base height and otherwise becomes `trunc(h1 * baseAspect)`, which is at most
`2 * w` and need not be `w`. -/
theorem resizeByWidth_then_height (ctx : NodeMagick) (a b : Double) (w h1 : ℕ)
    (ha : a.Uint32Value = w) (hw : 1 ≤ w)
    (hne : (if ctx.cropped then ctx.crop.w else ctx.size.w) ≠ w)
    (hq : Double.toULong (Double.div (Double.ofULong w) (baseAspect ctx)) = some h1)
    (hb : b.Uint32Value = h1) (hh : 1 ≤ h1) :
    fnResizeByWidth ctx [Value.number a] =
        Completion.value ()
          { ctx with resize := { ctx.resize with w := w, h := h1 }, resized := true } ∧
      ∃ w2, w2 ≤ 2 * w ∧
        ((if ctx.cropped then ctx.crop.h else ctx.size.h) = h1 → w2 = w) ∧
        ((if ctx.cropped then ctx.crop.h else ctx.size.h) ≠ h1 →
          Double.toULong (Double.mul (Double.ofULong h1) (baseAspect ctx)) = some w2) ∧
        fnResizeByHeight
            { ctx with resize := { ctx.resize with w := w, h := h1 }, resized := true }
            [Value.number b] =
          Completion.value ()
            { ctx with resize := { ctx.resize with w := w2, h := h1 }, resized := true } := by
  have hw32 : w < 2 ^ 32 := ha ▸ Double.Uint32Value_lt a
  have hh32 : h1 < 2 ^ 32 := hb ▸ Double.Uint32Value_lt b
  constructor
  · rw [fnResizeByWidth_run ctx a w ha hw, if_neg hne, hq]
  · obtain ⟨w2, hw2, hle⟩ := Double.roundtrip_bound w h1 (baseAspect ctx) hw hw32 hh hh32 hq
    rw [fnResizeByHeight_run _ b h1 hb hh]
    by_cases hbase : (if ctx.cropped then ctx.crop.h else ctx.size.h) = h1
    · refine ⟨w, by omega, fun _ => rfl, fun h => absurd hbase h, ?_⟩
      rw [if_pos hbase]
    · refine ⟨w2, hle, fun h => absurd h hbase, fun _ => hw2, ?_⟩
      rw [if_neg hbase]
      have hA : baseAspect
          { ctx with resize := { ctx.resize with w := w, h := h1 }, resized := true } =
          baseAspect ctx := rfl
      rw [hA, hw2]

/-- Witness for C13 (amended): the 1000x500 image with `w = 3`, `h1 = 1`. -/
theorem resizeByWidth_then_height_witness :
    ∃ w2, w2 ≤ 2 * 3 ∧
      ((if (sessionOf 1000 500).cropped then (sessionOf 1000 500).crop.h
          else (sessionOf 1000 500).size.h) = 1 → w2 = 3) ∧
      ((if (sessionOf 1000 500).cropped then (sessionOf 1000 500).crop.h
          else (sessionOf 1000 500).size.h) ≠ 1 →
        Double.toULong (Double.mul (Double.ofULong 1) (baseAspect (sessionOf 1000 500))) =
          some w2) ∧
      fnResizeByHeight
          { sessionOf 1000 500 with
            resize := { (sessionOf 1000 500).resize with w := 3, h := 1 }, resized := true }
          [Value.number (Double.ofULong 1)] =
        Completion.value ()
          { sessionOf 1000 500 with
            resize := { (sessionOf 1000 500).resize with w := w2, h := 1 }, resized := true } :=
  (resizeByWidth_then_height (sessionOf 1000 500) (Double.ofULong 3) (Double.ofULong 1) 3 1
    (by decide) (by decide) (by decide) (by decide) (by decide) (by decide)).2

end NodeMagick

/-! ## What the planner methods leave alone -/

namespace NodeMagick

/-- The frame of `cropPlan`: only `cropped`, `crop.w`, `crop.h`, `x` and `y` can
change, and the crop size changes only when `cropped` ends up set. -/
theorem cropPlan_frame (ctx c : NodeMagick) (argv : List Value) (t : Double)
    (h : cropPlan ctx argv t = some c) :
    c.wand = ctx.wand ∧ c.attached = ctx.attached ∧ c.format = ctx.format ∧
      c.format_to = ctx.format_to ∧ c.src = ctx.src ∧ c.quality = ctx.quality ∧
      c.scale = ctx.scale ∧ c.resized = ctx.resized ∧ c.size = ctx.size ∧
      c.resize = ctx.resize ∧ c.crop.aspect = ctx.crop.aspect ∧
      (c.cropped = true ∨ (c.cropped = false ∧ c.crop = ctx.crop)) := by
  by_cases h1 : Double.lt t ctx.size.aspect = true
  · cases hcw : Double.toULong (Double.mul (Double.ofULong ctx.size.h) t) with
    | none =>
      unfold cropPlan at h
      simp only [h1, hcw, if_true] at h
      cases h
    | some cw =>
      rw [cropPlan_wide ctx argv t cw h1 hcw] at h
      cases h
      simp
  · by_cases h2 : Double.lt ctx.size.aspect t = true
    · cases hch : Double.toULong (Double.div (Double.ofULong ctx.size.w) t) with
      | none =>
        unfold cropPlan at h
        simp only [h1, h2, hch, if_true, if_false] at h
        cases h
      | some ch =>
        rw [cropPlan_tall ctx argv t ch h2 hch] at h
        cases h
        simp
    · rw [Bool.not_eq_true] at h1 h2
      rw [cropPlan_same ctx argv t h1 h2] at h
      cases h
      simp

/-- The frame of `fnCrop`: whatever the arguments, a call that returns or throws
leaves everything but `cropped`, `crop`, `x` and `y` as it was, and either keeps
`crop` or ends `cropped` with `crop.aspect` recomputed from the
new crop size. -/
theorem fnCrop_after (ctx ctx1 : NodeMagick) (argv : List Value)
    (h : (fnCrop ctx argv).after = some ctx1) :
    ctx1.wand = ctx.wand ∧ ctx1.attached = ctx.attached ∧ ctx1.format = ctx.format ∧
      ctx1.format_to = ctx.format_to ∧ ctx1.src = ctx.src ∧ ctx1.quality = ctx.quality ∧
      ctx1.scale = ctx.scale ∧ ctx1.resized = ctx.resized ∧ ctx1.size = ctx.size ∧
      ctx1.resize = ctx.resize ∧
      (ctx1.crop = ctx.crop ∨
        (ctx1.cropped = true ∧ ctx1.crop.aspect =
          Double.div (Double.ofULong ctx1.crop.w) (Double.ofULong ctx1.crop.h))) := by
  unfold fnCrop at h
  simp only at h
  split_ifs at h with hg
  · cases h
    simp
  · cases hp : cropPlan ctx argv (argv.getD 0 Value.undefined).NumberValue with
    | none => rw [hp] at h; cases h
    | some c =>
      rw [hp] at h
      obtain ⟨f1, f2, f3, f4, f5, f6, f7, f8, f9, f10, f11, f12⟩ := cropPlan_frame ctx c argv _ hp
      simp only at h
      split_ifs at h with hc
      · cases h
        simp [f1, f2, f3, f4, f5, f6, f7, f8, f9, f10, hc]
      · cases h
        rcases f12 with hx | ⟨hx, hy⟩
        · exact absurd hx hc
        · simp [f1, f2, f3, f4, f5, f6, f7, f8, f9, f10, hx, hy]

theorem sameButResize_refl (ctx : NodeMagick) : SameButResize ctx ctx :=
  ⟨Eq.refl _, Eq.refl _, Eq.refl _, Eq.refl _, Eq.refl _, Eq.refl _, Eq.refl _, Eq.refl _,
    Eq.refl _, Eq.refl _, Eq.refl _⟩

theorem fnScale_after (ctx ctx1 : NodeMagick) (argv : List Value)
    (h : (fnScale ctx argv).after = some ctx1) : SameButResize ctx ctx1 := by
  unfold fnScale at h
  simp only at h
  split_ifs at h
  · cases h; exact sameButResize_refl ctx
  · split at h
    · cases h; exact sameButResize_refl ctx
    · cases h

theorem fnResize_after (ctx ctx1 : NodeMagick) (argv : List Value)
    (h : (fnResize ctx argv).after = some ctx1) : SameButResize ctx ctx1 := by
  unfold fnResize at h
  simp only at h
  split_ifs at h <;> cases h <;> exact sameButResize_refl ctx

theorem fnResizeByWidth_after (ctx ctx1 : NodeMagick) (argv : List Value)
    (h : (fnResizeByWidth ctx argv).after = some ctx1) : SameButResize ctx ctx1 := by
  unfold fnResizeByWidth at h
  simp only at h
  split_ifs at h
  · cases h; exact sameButResize_refl ctx
  · split at h
    · cases h; exact sameButResize_refl ctx
    · cases h
  · cases h; exact sameButResize_refl ctx

theorem fnResizeByHeight_after (ctx ctx1 : NodeMagick) (argv : List Value)
    (h : (fnResizeByHeight ctx argv).after = some ctx1) : SameButResize ctx ctx1 := by
  unfold fnResizeByHeight at h
  simp only at h
  split_ifs at h
  · cases h; exact sameButResize_refl ctx
  · split at h
    · cases h; exact sameButResize_refl ctx
    · cases h
  · cases h; exact sameButResize_refl ctx

end NodeMagick

/-! ## Invariants of the reachable sessions -/

namespace NodeMagick

theorem loadImage_ok_crop (lib : MagickLib) (ctx : NodeMagick) (path : String)
    (hok : lib.status (if ctx.attached then [] else ctx.wand) (WandCall.ReadImage path) = true) :
    (loadImage lib ctx path).2.crop = (loadImage lib ctx path).2.size ∧
      (loadImage lib ctx path).2.crop.aspect =
        Double.div (Double.ofULong (loadImage lib ctx path).2.crop.w)
          (Double.ofULong (loadImage lib ctx path).2.crop.h) := by
  unfold loadImage
  cases ha : ctx.attached <;> simp_all

theorem loadImage_crop (lib : MagickLib) (ctx : NodeMagick) (path : String) :
    ((loadImage lib ctx path).2.crop = ctx.crop ∧
        (loadImage lib ctx path).2.cropped = ctx.cropped) ∨
      (loadImage lib ctx path).2.crop.aspect =
        Double.div (Double.ofULong (loadImage lib ctx path).2.crop.w)
          (Double.ofULong (loadImage lib ctx path).2.crop.h) := by
  by_cases hs : lib.status (if ctx.attached then [] else ctx.wand)
      (WandCall.ReadImage path) = true
  · right; exact (loadImage_ok_crop lib ctx path hs).2
  · left
    unfold loadImage
    cases ha : ctx.attached <;> simp_all

/-- C18: in every session reachable from a successful `loadImage` by planner
calls (`crop`, `scale`, `resize`, `resizeByWidth`, `resizeByHeight`, with any
arguments) and further `loadImage` calls (successful or not), whenever `cropped`
is set the stored `crop.aspect` is `(double)crop.w / (double)crop.h` of the
current crop size. -/
theorem crop_aspect_invariant (lib : MagickLib) (ctx0 ctx : NodeMagick) (path : String)
    (hok : lib.status (if ctx0.attached then [] else ctx0.wand) (WandCall.ReadImage path) = true)
    (hr : Relation.ReflTransGen (SessionStep lib) (loadImage lib ctx0 path).2 ctx)
    (_hc : ctx.cropped = true) :
    ctx.crop.aspect = Double.div (Double.ofULong ctx.crop.w) (Double.ofULong ctx.crop.h) := by
  clear _hc
  induction hr with
  | refl => exact (loadImage_ok_crop lib ctx0 path hok).2
  | @tail b c _ hstep ih =>
    cases hstep
    case planner hp =>
      cases hp
      case crop argv h =>
        rcases (fnCrop_after _ _ argv h).2.2.2.2.2.2.2.2.2.2 with h1 | ⟨-, h1⟩
        · rw [h1]; exact ih
        · exact h1
      case scale argv h => rw [(fnScale_after _ _ argv h).2.2.2.2.2.2.2.2.2.2]; exact ih
      case resize argv h => rw [(fnResize_after _ _ argv h).2.2.2.2.2.2.2.2.2.2]; exact ih
      case resizeByWidth argv h =>
        rw [(fnResizeByWidth_after _ _ argv h).2.2.2.2.2.2.2.2.2.2]; exact ih
      case resizeByHeight argv h =>
        rw [(fnResizeByHeight_after _ _ argv h).2.2.2.2.2.2.2.2.2.2]; exact ih
    case load p =>
      rcases loadImage_crop lib b p with ⟨h1, -⟩ | h1
      · rw [h1]; exact ih
      · exact h1

/-- Witness for C18: the scenario session, reached from the load of a 1000x500
image by `crop(1.0, CENTER)` and `scale(50)`. -/
theorem crop_aspect_invariant_witness :
    plannedSession.crop.aspect =
      Double.div (Double.ofULong plannedSession.crop.w) (Double.ofULong plannedSession.crop.h) :=
  crop_aspect_invariant (goodLib 1000 500) NodeMagick.new plannedSession "in.jpg" rfl
    (Relation.ReflTransGen.tail
      (Relation.ReflTransGen.single
        (SessionStep.planner _
          { sessionOf 1000 500 with
            cropped := true
            crop := { w := 500, h := 500, aspect := Double.ofULong 1 }
            x := 250 }
          (PlannerStep.crop _ _ [Value.ofNat 1, Value.ofNat ALIGN_CENTER] rfl)))
      (SessionStep.planner _ _ (PlannerStep.scale _ _ [Value.ofNat 50] rfl)))
    rfl

/-- C20: in every session reachable from a successful `loadImage` of an image with
sides in `[1, 2^53]` by planner calls whose `crop` calls have a target aspect
`t > 0`, the crop size does not exceed the natural size. -/
theorem crop_within_natural (lib : MagickLib) (ctx0 ctx : NodeMagick) (path : String)
    (hok : lib.status (if ctx0.attached then [] else ctx0.wand) (WandCall.ReadImage path) = true)
    (hw1 : 1 ≤ lib.imageWidth
      ((if ctx0.attached then [] else ctx0.wand) ++ [WandCall.ReadImage path]))
    (hw2 : lib.imageWidth
      ((if ctx0.attached then [] else ctx0.wand) ++ [WandCall.ReadImage path]) ≤ 2 ^ 53)
    (hh1 : 1 ≤ lib.imageHeight
      ((if ctx0.attached then [] else ctx0.wand) ++ [WandCall.ReadImage path]))
    (hh2 : lib.imageHeight
      ((if ctx0.attached then [] else ctx0.wand) ++ [WandCall.ReadImage path]) ≤ 2 ^ 53)
    (hr : Relation.ReflTransGen PositivePlannerStep (loadImage lib ctx0 path).2 ctx) :
    ctx.crop.w ≤ ctx.size.w ∧ ctx.crop.h ≤ ctx.size.h := by
  have key : Loaded ctx ∧ ctx.crop.w ≤ ctx.size.w ∧ ctx.crop.h ≤ ctx.size.h := by
    induction hr with
    | refl =>
      refine ⟨loadImage_Loaded lib ctx0 path hok hw1 hw2 hh1 hh2, ?_⟩
      rw [(loadImage_ok_crop lib ctx0 path hok).1]
      exact ⟨le_rfl, le_rfl⟩
    | @tail b c _ hstep ih =>
      obtain ⟨hl, hcw, hch⟩ := ih
      have keep : ∀ c1 : NodeMagick, SameButResize b c1 →
          Loaded c1 ∧ c1.crop.w ≤ c1.size.w ∧ c1.crop.h ≤ c1.size.h := by
        intro c1 hs
        obtain ⟨-, s2, -, -, -, -, -, -, -, s10, s11⟩ := hs
        unfold Loaded at hl ⊢
        rw [s2, s10, s11]
        exact ⟨hl, hcw, hch⟩
      cases hstep
      case crop t rest ht hpos h =>
        rcases fnCrop_cases b (Or.inl hl) t ht hpos rest with
          ⟨-, cw, -, hle, hf⟩ | ⟨-, ch, -, hle, hf⟩ | ⟨-, -, hf⟩
        · rw [hf] at h
          cases h
          exact ⟨hl, hle, le_rfl⟩
        · rw [hf] at h
          cases h
          exact ⟨hl, le_rfl, hle⟩
        · rw [hf] at h
          cases h
          exact ⟨hl, hcw, hch⟩
      case scale argv h => exact keep _ (fnScale_after _ _ argv h)
      case resize argv h => exact keep _ (fnResize_after _ _ argv h)
      case resizeByWidth argv h => exact keep _ (fnResizeByWidth_after _ _ argv h)
      case resizeByHeight argv h => exact keep _ (fnResizeByHeight_after _ _ argv h)
  exact key.2

/-- Witness for C20: the scenario session, reached from the load of a 1000x500
image by `crop(1.0, CENTER)` and `scale(50)`. -/
theorem crop_within_natural_witness :
    plannedSession.crop.w ≤ plannedSession.size.w ∧
      plannedSession.crop.h ≤ plannedSession.size.h :=
  crop_within_natural (goodLib 1000 500) NodeMagick.new plannedSession "in.jpg" rfl
    (by decide) (by decide) (by decide) (by decide)
    (Relation.ReflTransGen.tail
      (Relation.ReflTransGen.single
        (PositivePlannerStep.crop _
          { sessionOf 1000 500 with
            cropped := true
            crop := { w := 500, h := 500, aspect := Double.ofULong 1 }
            x := 250 }
          (Double.ofULong 1) [Value.ofNat ALIGN_CENTER] (by decide) (by decide) rfl))
      (PositivePlannerStep.scale _ _ [Value.ofNat 50] rfl))

end NodeMagick

/-! ## Accessors, failed loads and the task coordinator -/

namespace NodeMagick

/-- C11 (the code at the failing input): writing `-5` to `quality` stores 100, not
0: `Uint32Value` turns `-5` into 4294967291 before the `> 100` test.  Writing 150
stores 100. -/
theorem setQuality_negative :
    Value.Uint32Value (Value.number (Double.fin true (5 * 2 ^ 50) (-50))) = 4294967291 ∧
      (setQuality NodeMagick.new (Value.number (Double.fin true (5 * 2 ^ 50) (-50)))).quality =
        100 ∧
      (setQuality NodeMagick.new (Value.ofNat 150)).quality = 100 := by
  refine ⟨rfl, rfl, rfl⟩

/-- C12: whatever the session, when `MagickReadImage` fails `loadImage` returns the
library's diagnostic and leaves `attached` cleared; and on a session whose
`attached` is clear `saveImage` returns `Undefined()` and leaves the session,
the record of library calls included, exactly as it was. -/
theorem loadImage_fail_saveImage_unloaded (lib : MagickLib) (ctx : NodeMagick) (path : String) :
    (lib.status (if ctx.attached then [] else ctx.wand) (WandCall.ReadImage path) = false →
      (loadImage lib ctx path).1 = some (lib.exception
        ((if ctx.attached then [] else ctx.wand) ++ [WandCall.ReadImage path])) ∧
      (loadImage lib ctx path).2.attached = false) ∧
    (ctx.attached = false → saveImage lib ctx path = (none, ctx)) := by
  constructor
  · intro h
    unfold loadImage
    cases ha : ctx.attached <;> simp_all
  · intro h
    unfold saveImage
    simp [h]

/-- Witness for C12: a fresh object and a library whose decode fails with
"no such file". -/
theorem loadImage_fail_saveImage_unloaded_witness :
    ((loadImage (badLib "no such file") NodeMagick.new "missing.jpg").1 = some "no such file" ∧
      (loadImage (badLib "no such file") NodeMagick.new "missing.jpg").2.attached = false) ∧
    saveImage (badLib "no such file") NodeMagick.new "out.jpg" = (none, NodeMagick.new) :=
  ⟨(loadImage_fail_saveImage_unloaded (badLib "no such file") NodeMagick.new "missing.jpg").1 rfl,
    (loadImage_fail_saveImage_unloaded (badLib "no such file") NodeMagick.new "out.jpg").2 rfl⟩

/-- C14 (the code at the failing input): the handler never receives an error.
For a deferred `load` of a file the library cannot decode, `beginEIO` takes the
lock, runs `loadImage`, records its error text in `retval` and releases the
lock, and `endEIO` computes the error in `errstr` but calls the handler with the
`argv` it initialised before, which still holds `Undefined()`.  The same happens
when taking the lock fails: `loadImage` is not run, `errstr` holds the lock
error, and the handler is called with `Undefined()`. -/
theorem endEIO_drops_error :
    (fnLoad (badLib "no such file") NodeMagick.new
        [Value.string "missing.jpg" Double.nan, Value.function]).queued =
        some { task := ASYNC_TASK_LOAD, errstr := none, udata := "missing.jpg", retval := none } ∧
      ( beginEIO (badLib "no such file") none none
          { task := ASYNC_TASK_LOAD, errstr := none, udata := "missing.jpg", retval := none }
          NodeMagick.new).1 =
        { task := ASYNC_TASK_LOAD, errstr := none, udata := "missing.jpg",
          retval := some "no such file" } ∧
      endEIO { task := ASYNC_TASK_LOAD, errstr := none, udata := "missing.jpg",
               retval := some "no such file" } =
        { argv := [none], errstr := some "no such file" } ∧
      beginEIO (goodLib 1000 500) (some "Resource deadlock avoided") none
          { task := ASYNC_TASK_LOAD, errstr := none, udata := "in.jpg", retval := none }
          NodeMagick.new =
        ({ task := ASYNC_TASK_LOAD, errstr := some "Resource deadlock avoided", udata := "in.jpg",
           retval := none }, NodeMagick.new, [SysAction.pthread_mutex_lock]) ∧
      endEIO { task := ASYNC_TASK_LOAD, errstr := some "Resource deadlock avoided",
               udata := "in.jpg", retval := none } =
        { argv := [none], errstr := some "Resource deadlock avoided" } := by
  refine ⟨rfl, rfl, rfl, rfl, rfl⟩

/-- C15 (the code at the failing input): without a handler `load` and `save` call
`loadImage` / `saveImage` directly and never touch the mutex, whereas `beginEIO`
brackets the same call with `pthread_mutex_lock` and `pthread_mutex_unlock`. -/
theorem fnLoad_sync_no_lock :
    (fnLoad (goodLib 1000 500) NodeMagick.new [Value.string "in.jpg" Double.nan]).actions =
        [SysAction.loadImage "in.jpg"] ∧
      (fnSave (goodLib 1000 500) (sessionOf 1000 500)
          [Value.string "out.jpg" Double.nan]).actions = [SysAction.saveImage "out.jpg"] ∧
      ( beginEIO (goodLib 1000 500) none none
          { task := ASYNC_TASK_LOAD, errstr := none, udata := "in.jpg", retval := none }
          NodeMagick.new).2.2 =
        [SysAction.pthread_mutex_lock, SysAction.loadImage "in.jpg",
          SysAction.pthread_mutex_unlock] := by
  refine ⟨rfl, rfl, rfl⟩

/-- C19 (the code at the failing input): on a 1000x500 image `crop(1.0, CENTER)`
followed by `crop(2.0)` leaves neither `cropped` nor `resized` set, but the crop
size stays 500x500, and `getWidth` reports 500 where the natural width is 1000. -/
theorem getWidth_stale_crop :
    (((fnCrop (sessionOf 1000 500) [Value.ofNat 1, Value.ofNat ALIGN_CENTER]).ctx?.bind
        (fun c => (fnCrop c [Value.ofNat 2]).ctx?)).map
      (fun c => (c.cropped, c.resized, getWidth c, getHeight c, c.size.w, c.size.h))) =
      some (false, false, Value.ofNat 500, Value.ofNat 500, 1000, 500) := by
  rfl

end NodeMagick

/-! ## The frame of the planner -/

namespace NodeMagick

/-- C21: every planner call that returns or throws its `TypeError` leaves
`attached`, `src`, the natural `size` (width, height and aspect), `quality`,
`format` and `format_to` as they were, whatever the session and the arguments;
`scale`, `resize`, `resizeByWidth` and `resizeByHeight` also leave `crop` (width,
height and aspect), `x`, `y` and `cropped` as they were. -/
theorem planner_frame (ctx ctx1 : NodeMagick) (argv : List Value) :
    ((fnCrop ctx argv).after = some ctx1 →
      ctx1.attached = ctx.attached ∧ ctx1.src = ctx.src ∧ ctx1.size = ctx.size ∧
        ctx1.quality = ctx.quality ∧ ctx1.format = ctx.format ∧
        ctx1.format_to = ctx.format_to) ∧
    ((fnScale ctx argv).after = some ctx1 →
      (ctx1.attached = ctx.attached ∧ ctx1.src = ctx.src ∧ ctx1.size = ctx.size ∧
        ctx1.quality = ctx.quality ∧ ctx1.format = ctx.format ∧
        ctx1.format_to = ctx.format_to) ∧
      ctx1.crop = ctx.crop ∧ ctx1.x = ctx.x ∧ ctx1.y = ctx.y ∧ ctx1.cropped = ctx.cropped) ∧
    ((fnResize ctx argv).after = some ctx1 →
      (ctx1.attached = ctx.attached ∧ ctx1.src = ctx.src ∧ ctx1.size = ctx.size ∧
        ctx1.quality = ctx.quality ∧ ctx1.format = ctx.format ∧
        ctx1.format_to = ctx.format_to) ∧
      ctx1.crop = ctx.crop ∧ ctx1.x = ctx.x ∧ ctx1.y = ctx.y ∧ ctx1.cropped = ctx.cropped) ∧
    ((fnResizeByWidth ctx argv).after = some ctx1 →
      (ctx1.attached = ctx.attached ∧ ctx1.src = ctx.src ∧ ctx1.size = ctx.size ∧
        ctx1.quality = ctx.quality ∧ ctx1.format = ctx.format ∧
        ctx1.format_to = ctx.format_to) ∧
      ctx1.crop = ctx.crop ∧ ctx1.x = ctx.x ∧ ctx1.y = ctx.y ∧ ctx1.cropped = ctx.cropped) ∧
    ((fnResizeByHeight ctx argv).after = some ctx1 →
      (ctx1.attached = ctx.attached ∧ ctx1.src = ctx.src ∧ ctx1.size = ctx.size ∧
        ctx1.quality = ctx.quality ∧ ctx1.format = ctx.format ∧
        ctx1.format_to = ctx.format_to) ∧
      ctx1.crop = ctx.crop ∧ ctx1.x = ctx.x ∧ ctx1.y = ctx.y ∧ ctx1.cropped = ctx.cropped) := by
  have keep : SameButResize ctx ctx1 →
      (ctx1.attached = ctx.attached ∧ ctx1.src = ctx.src ∧ ctx1.size = ctx.size ∧
        ctx1.quality = ctx.quality ∧ ctx1.format = ctx.format ∧
        ctx1.format_to = ctx.format_to) ∧
      ctx1.crop = ctx.crop ∧ ctx1.x = ctx.x ∧ ctx1.y = ctx.y ∧ ctx1.cropped = ctx.cropped := by
    rintro ⟨-, s2, s3, s4, s5, s6, s7, s8, s9, s10, s11⟩
    exact ⟨⟨s2, s5, s10, s6, s3, s4⟩, s11, s8, s9, s7⟩
  refine ⟨?_, fun h => keep (fnScale_after ctx ctx1 argv h),
    fun h => keep (fnResize_after ctx ctx1 argv h),
    fun h => keep (fnResizeByWidth_after ctx ctx1 argv h),
    fun h => keep (fnResizeByHeight_after ctx ctx1 argv h)⟩
  intro h
  obtain ⟨-, f2, f3, f4, f5, f6, -, -, f9, -, -⟩ := fnCrop_after ctx ctx1 argv h
  exact ⟨f2, f5, f9, f6, f3, f4⟩

/-- Witness for C21: on a 1000x500 image, the successful `crop(1.0, CENTER)` and
the rejected `resize(0, 10)`. -/
theorem planner_frame_witness :
    ((fnCrop (sessionOf 1000 500) [Value.ofNat 1, Value.ofNat ALIGN_CENTER]).after =
        some { sessionOf 1000 500 with
               cropped := true
               crop := { w := 500, h := 500, aspect := Double.ofULong 1 }
               x := 250 } ∧
      (fnResize (sessionOf 1000 500) [Value.ofNat 0, Value.ofNat 10]).after =
        some (sessionOf 1000 500)) ∧
    ({ sessionOf 1000 500 with
       cropped := true
       crop := { w := 500, h := 500, aspect := Double.ofULong 1 }
       x := 250 } : NodeMagick).size = (sessionOf 1000 500).size ∧
    (sessionOf 1000 500).crop = (sessionOf 1000 500).crop :=
  ⟨⟨rfl, rfl⟩,
    ((planner_frame (sessionOf 1000 500)
      { sessionOf 1000 500 with
        cropped := true
        crop := { w := 500, h := 500, aspect := Double.ofULong 1 }
        x := 250 }
      [Value.ofNat 1, Value.ofNat ALIGN_CENTER]).1 rfl).2.2.1,
    ((planner_frame (sessionOf 1000 500) (sessionOf 1000 500)
      [Value.ofNat 0, Value.ofNat 10]).2.2.1 rfl).2.1⟩

end NodeMagick
